import Mathlib

/-!
# BBR-adaptive state machine (`tcp-bbr-state-adaptive.cc`)

A shallow embedding of `BbrAdaptiveStateMachine` and its four states
(`STARTUP`, `DRAIN`, `PROBE_BW`, `PROBE_RTT`).

Modelling conventions

* C++ `double` values (bandwidth, gains, bandwidth-delay product) are the
  rationals `ℚ` they stand for; NaN and infinities are outside the model.
  The rounding of `double` arithmetic is the function `fl` of `Consts`, taken
  monotone with `fl 0 = 0`; a value `x` is a `double` when `fl x = x`. Rounding
  is written where a rounded value decides a branch or a conversion to an
  integer: on the two sides of the growth test of `STARTUP` and on the byte
  count that `enter()` of `DRAIN` converts to `uint32_t`.
* ns-3 `Time` is an integer number of nanoseconds (`Int`), without a width.
  `rtt.GetSeconds() > 0.2` is `rtt > 200000000` and `Time(0.2 * 1000000000)`
  is `200000000`. `Time::IsNegative()` is the ns-3 library predicate
  `m_data <= 0`, which also holds of the zero time (the strict test of ns-3 is
  `IsStrictlyNegative()`).
* `uint32_t` counters are `Nat` reduced modulo `2^32`; the `int` fields are
  `Int` (signed overflow is undefined behaviour in C++ and is not modelled).
* `m_state` is a pointer to one of the four per-flow state objects or `NULL`:
  `Option StatePtr`.
* The flow object `TcpBbrAdaptive` (header `tcp-bbr-adaptive.h`) is not part of
  the sources. Its constants are the fields of `Consts`; the values its methods,
  `Simulator::Now()` and `rand()` hand to the state machine during one call are
  the fields of `Tick`; the fields of the flow object the state machine reads or
  writes are the fields of `TcpBbrAdaptive`. The calls the machine issues to its
  collaborators (window culls, `Simulator::Schedule`) and the hooks it runs are
  recorded, in order, in the field `trace`. The collaborators are taken not to
  write the fields of the machine and of the four states.
-/

namespace BbrAdaptive

/-- Enumeration `BbrAdaptive_state` of `tcp-bbr-state-adaptive.h`. -/
inductive BbrAdaptive_state where
  | UNDEFINED_STATE
  | STARTUP_STATE
  | DRAIN_STATE
  | PROBE_BW_STATE
  | PROBE_RTT_STATE
  deriving DecidableEq, Repr

/-- Constants of namespace `BbrAdaptive` declared in the absent header
`tcp-bbr-adaptive.h`; `NO_PACING` is the truth value of
`PACING_CONFIG == NO_PACING`. With them, the rounding `fl` of the `double`
arithmetic of the platform: `fl x` is the `double` that an operation with exact
result `x` yields; rounding is monotone and leaves 0 as it is. -/
structure Consts where
  STARTUP_GAIN : ℚ
  STARTUP_THRESHOLD : ℚ
  STEADY_FACTOR : ℚ
  PROBE_FACTOR : ℚ
  DRAIN_FACTOR : ℚ
  MIN_CWND : ℚ
  NO_PACING : Bool
  fl : ℚ → ℚ
  fl_mono : ∀ x y : ℚ, x ≤ y → fl x ≤ fl y
  fl_zero : fl 0 = 0

end BbrAdaptive

open BbrAdaptive

/-- The non-null values of a `BbrAdaptiveState *`: the four state objects
`m_state_startup`, `m_state_drain`, `m_state_probe_bw`, `m_state_probe_rtt`
owned by the flow. -/
inductive StatePtr where
  | startup
  | drain
  | probe_bw
  | probe_rtt
  deriving DecidableEq, Repr

/-- Virtual `getType()` of the four state classes. -/
def StatePtr.getType : StatePtr → BbrAdaptive_state
  | .startup => .STARTUP_STATE
  | .drain => .DRAIN_STATE
  | .probe_bw => .PROBE_BW_STATE
  | .probe_rtt => .PROBE_RTT_STATE

/-- Observable actions of the state machine, in the order they are issued. -/
inductive Event where
  | exit (p : StatePtr)
  | enter (p : StatePtr)
  | execute (p : StatePtr)
  | cullRTTwindow
  | cullBWwindow
  | Schedule (delay : Int)
  deriving DecidableEq, Repr

/-- The hook events: `exit()` and `enter()` of a state. -/
def Event.isHook : Event → Bool
  | .exit _ => true
  | .enter _ => true
  | _ => false

/-- What the collaborators return during one call into the state machine. -/
structure Tick where
  /-- result of `m_owner -> checkProbeRTT()` -/
  checkProbeRTT : Bool
  /-- result of `m_owner -> getBW()` (negative: no estimate yet) -/
  getBW : ℚ
  /-- result of `m_owner -> getBDP()` -/
  getBDP : ℚ
  /-- result of `m_owner -> getRTT()` before the windows are culled, in ns -/
  getRTT : Int
  /-- result of `m_owner -> getRTT()` after the windows are culled, in ns -/
  getRTT_culled : Int
  /-- value of `m_owner -> m_bytes_in_flight` -/
  m_bytes_in_flight : Nat
  /-- result of `Simulator::Now()`, in ns -/
  Now : Int
  /-- successive results of `rand()` -/
  rand : List Nat

/-- Fields of `BbrAdaptiveStartupState`. -/
structure BbrAdaptiveStartupState where
  m_full_bw : ℚ
  m_full_bw_count : Int
  deriving DecidableEq

/-- Fields of `BbrAdaptiveDrainState`. -/
structure BbrAdaptiveDrainState where
  m_inflight_limit : Nat
  m_round_count : Nat
  deriving DecidableEq

/-- Fields of `BbrAdaptiveProbeBWState`. -/
structure BbrAdaptiveProbeBWState where
  m_gain_cycle : Int
  deriving DecidableEq

/-- Fields of `BbrAdaptiveProbeRTTState`. -/
structure BbrAdaptiveProbeRTTState where
  m_probe_rtt_time : Int
  deriving DecidableEq

/-- The part of the flow object `TcpBbrAdaptive` the state machine reads and
writes, with `m_machine.m_state` flattened into `m_state`. -/
structure TcpBbrAdaptive where
  m_pacing_gain : ℚ
  m_cwnd_gain : ℚ
  m_cwnd : ℚ
  m_state_startup : BbrAdaptiveStartupState
  m_state_drain : BbrAdaptiveDrainState
  m_state_probe_bw : BbrAdaptiveProbeBWState
  m_state_probe_rtt : BbrAdaptiveProbeRTTState
  m_state : Option StatePtr
  trace : List Event
  deriving DecidableEq

/-- Constructor `BbrAdaptiveStartupState()`: both fields zero. -/
def BbrAdaptiveStartupState.new : BbrAdaptiveStartupState :=
  { m_full_bw := 0, m_full_bw_count := 0 }

/-- Constructor `BbrAdaptiveDrainState()`: both fields zero. -/
def BbrAdaptiveDrainState.new : BbrAdaptiveDrainState :=
  { m_inflight_limit := 0, m_round_count := 0 }

/-- ns-3 `Time::IsNegative()`, defined in `nstime.h` as `return m_data <= 0;`
(documented there as "exactly equivalent to `t <= 0`"). -/
def IsNegative (t : Int) : Bool :=
  decide (t ≤ 0)

/-- Conversion `(uint32_t) bdp` of a `double`: truncation, reduced to 32 bits. -/
def toUint32 (q : ℚ) : Nat :=
  (Rat.floor q).toNat % 2 ^ 32

/-- The loop `do { m_gain_cycle = rand() % 8; } while (m_gain_cycle == 1);`
over the successive results of `rand()`; `none` when the results run out
before the loop leaves. -/
def pickGainCycle : List Nat → Option Int
  | [] => none
  | r :: rs => if ((r % 8 : Nat) : Int) = 1 then pickGainCycle rs else some ((r % 8 : Nat) : Int)

namespace BbrAdaptiveState

/-- `BbrAdaptiveState::exit()`: the empty hook, inherited by all four states. -/
def exit (p : StatePtr) (o : TcpBbrAdaptive) : TcpBbrAdaptive :=
  { o with trace := o.trace ++ [Event.exit p] }

end BbrAdaptiveState

/-- `BbrAdaptiveStartupState::enter()`. -/
def BbrAdaptiveStartupState.enter (c : Consts) (o : TcpBbrAdaptive) : TcpBbrAdaptive :=
  { o with
    m_pacing_gain := c.STARTUP_GAIN
    m_cwnd_gain := c.STARTUP_GAIN
    trace := o.trace ++ [Event.enter .startup] }

/-- `BbrAdaptiveDrainState::enter()`. The byte count `bdp * 1000000 / 8` is
computed in `double` arithmetic, a product and a quotient, before the
conversion `(uint32_t) bdp`. -/
def BbrAdaptiveDrainState.enter (c : Consts) (t : Tick) (o : TcpBbrAdaptive) : TcpBbrAdaptive :=
  { o with
    m_pacing_gain := 1 / c.STARTUP_GAIN
    m_cwnd_gain := if c.NO_PACING then 1 / c.STARTUP_GAIN else c.STARTUP_GAIN
    m_state_drain :=
      { m_inflight_limit := toUint32 (c.fl (c.fl (t.getBDP * 1000000) / 8))
        m_round_count := 0 }
    trace := o.trace ++ [Event.enter .drain] }

/-- `BbrAdaptiveProbeBWState::enter()`; `none` when the phase loop does not
leave within the available results of `rand()`. -/
def BbrAdaptiveProbeBWState.enter (c : Consts) (t : Tick) (o : TcpBbrAdaptive) :
    Option TcpBbrAdaptive :=
  match pickGainCycle t.rand with
  | none => none
  | some g =>
    let pacing := if g = 0 then c.STEADY_FACTOR + c.PROBE_FACTOR else c.STEADY_FACTOR
    some { o with
      m_state_probe_bw := { m_gain_cycle := g }
      m_pacing_gain := pacing
      m_cwnd_gain := if c.NO_PACING then pacing else c.STEADY_FACTOR * 2
      trace := o.trace ++ [Event.enter .probe_bw] }

/-- `BbrAdaptiveProbeRTTState::enter()`. -/
def BbrAdaptiveProbeRTTState.enter (c : Consts) (t : Tick) (o : TcpBbrAdaptive) :
    TcpBbrAdaptive :=
  { o with
    m_pacing_gain := c.STEADY_FACTOR
    m_cwnd_gain := c.STEADY_FACTOR
    m_state_probe_rtt :=
      { m_probe_rtt_time := (if t.getRTT > 200000000 then t.getRTT else 200000000) + t.Now }
    trace := o.trace ++ [Event.enter .probe_rtt] }

namespace BbrAdaptiveStateMachine

/-- Virtual dispatch of `m_state -> enter()`. -/
def enter (c : Consts) (t : Tick) (p : StatePtr) (o : TcpBbrAdaptive) : Option TcpBbrAdaptive :=
  match p with
  | .startup => some (BbrAdaptiveStartupState.enter c o)
  | .drain => some (BbrAdaptiveDrainState.enter c t o)
  | .probe_bw => BbrAdaptiveProbeBWState.enter c t o
  | .probe_rtt => some (BbrAdaptiveProbeRTTState.enter c t o)

/-- `BbrAdaptiveStateMachine::changeState(new_state)`, `new_state` non-null. -/
def changeState (c : Consts) (t : Tick) (new_state : StatePtr) (o : TcpBbrAdaptive) :
    Option TcpBbrAdaptive :=
  let o1 := match o.m_state with
    | some old => BbrAdaptiveState.exit old o
    | none => o
  enter c t new_state { o1 with m_state := some new_state }

/-- `BbrAdaptiveStateMachine::getStateType()`; `none` stands for the
dereference of a null `m_state`. -/
def getStateType (o : TcpBbrAdaptive) : Option BbrAdaptive_state :=
  o.m_state.map StatePtr.getType

end BbrAdaptiveStateMachine

open BbrAdaptiveStateMachine

/-- `BbrAdaptiveStartupState::execute()`. The growth test compares two `double`
values: `new_bw`, which holds the `double` returned by `getBW()` (on it `fl` is
the identity), and the product `m_full_bw * STARTUP_THRESHOLD` as the `double`
multiplication yields it. -/
def BbrAdaptiveStartupState.execute (c : Consts) (t : Tick) (o : TcpBbrAdaptive) :
    Option TcpBbrAdaptive :=
  let o := { o with trace := o.trace ++ [Event.execute .startup] }
  let new_bw := t.getBW
  if new_bw < 0 then some o
  else if c.fl new_bw > c.fl (o.m_state_startup.m_full_bw * c.STARTUP_THRESHOLD) then
    some { o with m_state_startup := { m_full_bw := new_bw, m_full_bw_count := 0 } }
  else
    let o := { o with m_state_startup :=
      { o.m_state_startup with m_full_bw_count := o.m_state_startup.m_full_bw_count + 1 } }
    if o.m_state_startup.m_full_bw_count > 2 then changeState c t .drain o
    else some o

/-- `BbrAdaptiveDrainState::execute()`. -/
def BbrAdaptiveDrainState.execute (c : Consts) (t : Tick) (o : TcpBbrAdaptive) :
    Option TcpBbrAdaptive :=
  let o := { o with trace := o.trace ++ [Event.execute .drain] }
  let o := { o with m_state_drain :=
    { o.m_state_drain with m_round_count := (o.m_state_drain.m_round_count + 1) % 2 ^ 32 } }
  if t.m_bytes_in_flight < o.m_state_drain.m_inflight_limit ∨
      o.m_state_drain.m_round_count = 5 then
    changeState c t .probe_bw o
  else some o

/-- `BbrAdaptiveProbeBWState::execute()`. -/
def BbrAdaptiveProbeBWState.execute (c : Consts) (o : TcpBbrAdaptive) : TcpBbrAdaptive :=
  let o := { o with trace := o.trace ++ [Event.execute .probe_bw] }
  let g := o.m_state_probe_bw.m_gain_cycle
  let pacing :=
    if g = 0 then c.STEADY_FACTOR + c.PROBE_FACTOR
    else if g = 1 then
      if c.NO_PACING then c.STEADY_FACTOR - c.DRAIN_FACTOR / 8
      else c.STEADY_FACTOR - c.DRAIN_FACTOR
    else c.STEADY_FACTOR
  let g1 := g + 1
  { o with
    m_pacing_gain := pacing
    m_cwnd_gain := if c.NO_PACING then pacing else 2 * c.STEADY_FACTOR
    m_state_probe_bw := { m_gain_cycle := if g1 > 7 then 0 else g1 } }

/-- `BbrAdaptiveProbeRTTState::execute()`. -/
def BbrAdaptiveProbeRTTState.execute (c : Consts) (t : Tick) (o : TcpBbrAdaptive) :
    Option TcpBbrAdaptive :=
  let o := { o with trace := o.trace ++ [Event.execute .probe_rtt], m_cwnd := c.MIN_CWND * 1500 }
  let now := t.Now
  if now > o.m_state_probe_rtt.m_probe_rtt_time then changeState c t .probe_bw o
  else some o

namespace BbrAdaptiveStateMachine

/-- Virtual dispatch of `m_state -> execute()`. -/
def execute (c : Consts) (t : Tick) (p : StatePtr) (o : TcpBbrAdaptive) : Option TcpBbrAdaptive :=
  match p with
  | .startup => BbrAdaptiveStartupState.execute c t o
  | .drain => BbrAdaptiveDrainState.execute c t o
  | .probe_bw => some (BbrAdaptiveProbeBWState.execute c o)
  | .probe_rtt => BbrAdaptiveProbeRTTState.execute c t o

/-- `m_owner -> cullRTTwindow()` as seen from the machine: the call is issued. -/
def cullRTTwindow (o : TcpBbrAdaptive) : TcpBbrAdaptive :=
  { o with trace := o.trace ++ [Event.cullRTTwindow] }

/-- `m_owner -> cullBWwindow()` as seen from the machine: the call is issued. -/
def cullBWwindow (o : TcpBbrAdaptive) : TcpBbrAdaptive :=
  { o with trace := o.trace ++ [Event.cullBWwindow] }

/-- `Simulator::Schedule(rtt, &BbrAdaptiveStateMachine::update, this)`. -/
def Schedule (rtt : Int) (o : TcpBbrAdaptive) : TcpBbrAdaptive :=
  { o with trace := o.trace ++ [Event.Schedule rtt] }

/-- `BbrAdaptiveStateMachine::update()`. -/
def update (c : Consts) (t : Tick) (o : TcpBbrAdaptive) : Option TcpBbrAdaptive :=
  match o.m_state with
  | none => some o
  | some _ =>
    (if t.checkProbeRTT then changeState c t .probe_rtt o else some o).bind fun o1 =>
    (match o1.m_state with
      | none => none
      | some p => execute c t p o1).bind fun o2 =>
    let o3 := cullBWwindow (cullRTTwindow o2)
    let rtt := t.getRTT_culled
    if ¬ IsNegative rtt then some (Schedule rtt o3) else some o3

end BbrAdaptiveStateMachine

/-- A sequence of `changeState` calls on one machine, each with its target and
with what the collaborators return during that call. -/
def changeStates (c : Consts) : List (Tick × StatePtr) → TcpBbrAdaptive → Option TcpBbrAdaptive
  | [], o => some o
  | (t, p) :: rest, o => (BbrAdaptiveStateMachine.changeState c t p o).bind (changeStates c rest)

/-- A sequence of `update()` ticks on one machine, each with what the
collaborators return during that tick. -/
def updates (c : Consts) : List Tick → TcpBbrAdaptive → Option TcpBbrAdaptive
  | [], o => some o
  | t :: rest, o => (BbrAdaptiveStateMachine.update c t o).bind (updates c rest)

/-- A sequence of `execute()` calls on the `STARTUP` state object, each with
what the collaborators return during that call. -/
def startupExecutes (c : Consts) : List Tick → TcpBbrAdaptive → Option TcpBbrAdaptive
  | [], o => some o
  | t :: rest, o => (BbrAdaptiveStartupState.execute c t o).bind (startupExecutes c rest)

/-- A call into the machine from outside: `changeState(p)` or `update()`. -/
inductive Call where
  | changeState (t : Tick) (p : StatePtr)
  | update (t : Tick)

/-- What the collaborators return during a call. -/
def Call.tick : Call → Tick
  | .changeState t _ => t
  | .update t => t

/-- A sequence of calls into one machine. -/
def runCalls (c : Consts) : List Call → TcpBbrAdaptive → Option TcpBbrAdaptive
  | [], o => some o
  | .changeState t p :: rest, o =>
    (BbrAdaptiveStateMachine.changeState c t p o).bind (runCalls c rest)
  | .update t :: rest, o => (BbrAdaptiveStateMachine.update c t o).bind (runCalls c rest)

/-! ## Sample data -/

/-- Design values of the constants, pacing enabled; arithmetic without rounding
error, as it is on the sample values used below (their products and quotients
are `double` values). -/
def sampleConsts : Consts :=
  { STARTUP_GAIN := 289 / 100
    STARTUP_THRESHOLD := 5 / 4
    STEADY_FACTOR := 1
    PROBE_FACTOR := 1 / 4
    DRAIN_FACTOR := 1 / 4
    MIN_CWND := 4
    NO_PACING := false
    fl := fun x => x
    fl_mono := fun _ _ h => h
    fl_zero := rfl }

/-- A tick with bandwidth estimate 100, RTT 50 ms and 4000 bytes in flight. -/
def sampleTick : Tick :=
  { checkProbeRTT := false
    getBW := 100
    getBDP := 5
    getRTT := 50000000
    getRTT_culled := 50000000
    m_bytes_in_flight := 4000
    Now := 1000000000
    rand := [9, 17, 4, 1] }

/-- The constants of `sampleConsts` with a rounding to the nearest multiple of
`2^-k`. For `k = 50` this is the spacing of the `double` values from 4 to 8,
for `k = 34` that of the `double` values from `2^18` to `2^19`. -/
def gridConsts (k : Nat) : Consts :=
  { sampleConsts with
    fl := fun x => ((⌊x * 2 ^ k + 1 / 2⌋ : ℤ) : ℚ) / 2 ^ k
    fl_mono := fun x y h => by
      have h2 : (0 : ℚ) < 2 ^ k := by positivity
      have h1 : x * 2 ^ k + 1 / 2 ≤ y * 2 ^ k + 1 / 2 :=
        add_le_add_right (mul_le_mul_of_nonneg_right h (le_of_lt h2)) _
      exact div_le_div_of_nonneg_right (by exact_mod_cast Int.floor_le_floor h1)
        (le_of_lt h2)
    fl_zero := by norm_num }

/-- A flow whose machine has just been constructed: no active state. -/
def sampleFlow : TcpBbrAdaptive :=
  { m_pacing_gain := 0
    m_cwnd_gain := 0
    m_cwnd := 0
    m_state_startup := BbrAdaptiveStartupState.new
    m_state_drain := BbrAdaptiveDrainState.new
    m_state_probe_bw := { m_gain_cycle := 0 }
    m_state_probe_rtt := { m_probe_rtt_time := 0 }
    m_state := none
    trace := [] }

/-- A tick with 9000 bytes in flight. -/
def busyTick : Tick := { sampleTick with m_bytes_in_flight := 9000 }

/-- A tick on which `checkProbeRTT()` answers true. -/
def forcedTick : Tick := { sampleTick with checkProbeRTT := true }

/-- A tick at whose end no RTT sample exists. -/
def noRttTick : Tick := { sampleTick with getRTT_culled := -1 }

/-- A tick at whose end the RTT estimate is 0. -/
def zeroRttTick : Tick := { sampleTick with getRTT_culled := 0 }

/-- A tick with bandwidth-delay product 0 and 9000 bytes in flight. -/
def drainTick : Tick := { sampleTick with getBDP := 0, m_bytes_in_flight := 9000 }

/-! ## Effect of the single hooks -/

/-- The phase loop leaves as soon as a result of `rand()` has a residue
other than 1, with that residue. -/
theorem pickGainCycle_of_mem (l : List Nat) (h : ∃ r ∈ l, r % 8 ≠ 1) :
    ∃ r, l.find? (fun r => r % 8 != 1) = some r ∧
      pickGainCycle l = some ((r % 8 : Nat) : Int) ∧ r % 8 ≠ 1 := by
  induction l with
  | nil => simp at h
  | cons a rs ih =>
    by_cases ha : a % 8 = 1
    · have h' : ∃ r ∈ rs, r % 8 ≠ 1 := by
        obtain ⟨r, hr, hne⟩ := h
        rcases List.mem_cons.mp hr with rfl | hr'
        · exact absurd ha hne
        · exact ⟨r, hr', hne⟩
      obtain ⟨r, hf, hp, hne⟩ := ih h'
      refine ⟨r, ?_, ?_, hne⟩
      · rw [List.find?_cons_of_neg _ (by simp [ha])]
        exact hf
      · simp [pickGainCycle, ha, hp]
    · refine ⟨a, ?_, ?_, ha⟩
      · rw [List.find?_cons_of_pos _ (by simp [ha])]
      · have : ((a % 8 : Nat) : Int) ≠ 1 := by exact_mod_cast ha
        simp only [pickGainCycle, if_neg this]

/-- Entering `PROBE_BW` returns when `rand()` yields a usable phase. -/
theorem probe_bw_enter_some (c : Consts) (t : Tick) (o : TcpBbrAdaptive)
    (h : ∃ r ∈ t.rand, r % 8 ≠ 1) :
    ∃ o', BbrAdaptiveProbeBWState.enter c t o = some o' ∧ o'.m_state = o.m_state ∧
      o'.trace = o.trace ++ [Event.enter .probe_bw] ∧
      o'.m_state_startup = o.m_state_startup ∧ o'.m_state_drain = o.m_state_drain ∧
      o'.m_state_probe_rtt = o.m_state_probe_rtt ∧ o'.m_cwnd = o.m_cwnd := by
  obtain ⟨r, _, hp, _⟩ := pickGainCycle_of_mem t.rand h
  simp [BbrAdaptiveProbeBWState.enter, hp]

/-- Changing to `PROBE_BW` returns when `rand()` yields a usable phase, and the
machine is then in `PROBE_BW`. -/
theorem changeState_probe_bw_some (c : Consts) (t : Tick) (o : TcpBbrAdaptive)
    (h : ∃ r ∈ t.rand, r % 8 ≠ 1) :
    ∃ o', changeState c t .probe_bw o = some o' ∧ o'.m_state = some .probe_bw ∧
      o'.m_state_startup = o.m_state_startup ∧ o'.m_state_drain = o.m_state_drain ∧
      o'.m_state_probe_rtt = o.m_state_probe_rtt ∧ o'.m_cwnd = o.m_cwnd ∧
      ∃ hooks, o'.trace = o.trace ++ hooks ∧
        hooks = (match o.m_state with
          | some old => [Event.exit old]
          | none => []) ++ [Event.enter .probe_bw] := by
  unfold changeState BbrAdaptiveStateMachine.enter
  cases hs : o.m_state with
  | none =>
    obtain ⟨o', he, h1, h2, h3, h4, h5, h6⟩ :=
      probe_bw_enter_some c t { o with m_state := some .probe_bw } h
    exact ⟨o', by simpa using he, by simpa using h1, by simpa using h3, by simpa using h4,
      by simpa using h5, by simpa using h6, _, by simpa using h2, rfl⟩
  | some old =>
    obtain ⟨o', he, h1, h2, h3, h4, h5, h6⟩ :=
      probe_bw_enter_some c t { BbrAdaptiveState.exit old o with m_state := some .probe_bw } h
    exact ⟨o', by simpa using he, by simpa using h1,
      by simpa [BbrAdaptiveState.exit] using h3, by simpa [BbrAdaptiveState.exit] using h4,
      by simpa [BbrAdaptiveState.exit] using h5, by simpa [BbrAdaptiveState.exit] using h6,
      _, by simpa [BbrAdaptiveState.exit] using h2, rfl⟩

/-- One stalled round of `STARTUP` below the limit of three: the count goes up
by one, the best bandwidth and the active state stay. -/
theorem startup_execute_stall (c : Consts) (t : Tick) (o : TcpBbrAdaptive)
    (h0 : 0 ≤ t.getBW) (h1 : t.getBW ≤ o.m_state_startup.m_full_bw * c.STARTUP_THRESHOLD)
    (h2 : o.m_state_startup.m_full_bw_count + 1 ≤ 2) :
    ∃ o', BbrAdaptiveStartupState.execute c t o = some o' ∧ o'.m_state = o.m_state ∧
      o'.m_state_startup.m_full_bw = o.m_state_startup.m_full_bw ∧
      o'.m_state_startup.m_full_bw_count = o.m_state_startup.m_full_bw_count + 1 := by
  simp [BbrAdaptiveStartupState.execute, not_lt.mpr h0, not_lt.mpr (c.fl_mono _ _ h1),
    not_lt.mpr h2]

/-- The growth test of `STARTUP` is decided by the rounded product: an estimate
that is a `double` and is not above the product `m_full_bw * STARTUP_THRESHOLD`
as the `double` multiplication yields it makes a stalled round, also when it is
above the exact product. -/
theorem startup_execute_not_above (c : Consts) (t : Tick) (o : TcpBbrAdaptive)
    (h0 : 0 ≤ t.getBW) (hd : c.fl t.getBW = t.getBW)
    (h1 : t.getBW ≤ c.fl (o.m_state_startup.m_full_bw * c.STARTUP_THRESHOLD))
    (h2 : o.m_state_startup.m_full_bw_count + 1 ≤ 2) :
    ∃ o', BbrAdaptiveStartupState.execute c t o = some o' ∧ o'.m_state = o.m_state ∧
      o'.m_state_startup.m_full_bw = o.m_state_startup.m_full_bw ∧
      o'.m_state_startup.m_full_bw_count = o.m_state_startup.m_full_bw_count + 1 := by
  have h1' : ¬ c.fl (o.m_state_startup.m_full_bw * c.STARTUP_THRESHOLD) < c.fl t.getBW := by
    rw [hd]; exact not_lt.mpr h1
  simp [BbrAdaptiveStartupState.execute, not_lt.mpr h0, h1', not_lt.mpr h2]

/-- The growth test at a rounding tie: with best bandwidth
`4616189618054758 * 2^-50` (the `double` nearest to 4.1), threshold 1.25 and the
estimate 5.125, the estimate is above the exact product, the rounded product is
5.125, and the round is a stalled one. -/
theorem startup_execute_at_tie :
    (5125 / 1000 : ℚ) > 4616189618054758 / 2 ^ 50 * (gridConsts 50).STARTUP_THRESHOLD ∧
    (gridConsts 50).fl (4616189618054758 / 2 ^ 50 * (gridConsts 50).STARTUP_THRESHOLD)
      = 5125 / 1000 ∧
    ∃ o', BbrAdaptiveStartupState.execute (gridConsts 50)
        { sampleTick with getBW := 5125 / 1000 }
        { sampleFlow with
          m_state := some .startup
          m_state_startup := { m_full_bw := 4616189618054758 / 2 ^ 50, m_full_bw_count := 0 } }
        = some o' ∧
      o'.m_state = some .startup ∧
      o'.m_state_startup.m_full_bw = 4616189618054758 / 2 ^ 50 ∧
      o'.m_state_startup.m_full_bw_count = 1 := by
  have hfl : (gridConsts 50).fl
      (4616189618054758 / 2 ^ 50 * (gridConsts 50).STARTUP_THRESHOLD) = 5125 / 1000 := by
    norm_num [gridConsts, sampleConsts]
  refine ⟨by norm_num [gridConsts, sampleConsts], hfl, ?_⟩
  obtain ⟨o', he, hs, hb, hc⟩ := startup_execute_not_above (gridConsts 50)
    { sampleTick with getBW := 5125 / 1000 }
    { sampleFlow with
      m_state := some .startup
      m_state_startup := { m_full_bw := 4616189618054758 / 2 ^ 50, m_full_bw_count := 0 } }
    (by norm_num) (by norm_num [gridConsts, sampleConsts]) (le_of_eq hfl.symm) (by decide)
  exact ⟨o', he, hs, hb, hc⟩

/-- A stalled round of `STARTUP` that reaches the limit: the count goes up by
one and the machine changes to `DRAIN`. -/
theorem startup_execute_drain (c : Consts) (t : Tick) (o : TcpBbrAdaptive)
    (h0 : 0 ≤ t.getBW) (h1 : t.getBW ≤ o.m_state_startup.m_full_bw * c.STARTUP_THRESHOLD)
    (h2 : 2 < o.m_state_startup.m_full_bw_count + 1) :
    ∃ o', BbrAdaptiveStartupState.execute c t o = some o' ∧ o'.m_state = some .drain ∧
      o'.m_state_startup.m_full_bw = o.m_state_startup.m_full_bw ∧
      o'.m_state_startup.m_full_bw_count = o.m_state_startup.m_full_bw_count + 1 := by
  cases hs : o.m_state <;>
    simp [BbrAdaptiveStartupState.execute, not_lt.mpr h0, not_lt.mpr (c.fl_mono _ _ h1), h2,
      changeState,
      BbrAdaptiveStateMachine.enter, BbrAdaptiveDrainState.enter, BbrAdaptiveState.exit, hs]

/-- Changing to `DRAIN` always returns; it touches neither the `STARTUP` fields
nor the other states. -/
theorem changeState_drain (c : Consts) (t : Tick) (o : TcpBbrAdaptive) :
    ∃ o', changeState c t .drain o = some o' ∧ o'.m_state = some .drain ∧
      o'.m_state_startup = o.m_state_startup ∧
      o'.m_state_drain.m_round_count = 0 ∧
      o'.m_state_drain.m_inflight_limit
        = toUint32 (c.fl (c.fl (t.getBDP * 1000000) / 8)) := by
  unfold changeState BbrAdaptiveStateMachine.enter
  cases o.m_state <;> simp [BbrAdaptiveDrainState.enter, BbrAdaptiveState.exit]

/-- A round of `DRAIN` that meets neither exit condition: the round count goes
up by one, the target and the active state stay. -/
theorem drain_execute_stay (c : Consts) (t : Tick) (o : TcpBbrAdaptive)
    (h1 : o.m_state_drain.m_inflight_limit ≤ t.m_bytes_in_flight)
    (h2 : (o.m_state_drain.m_round_count + 1) % 2 ^ 32 ≠ 5) :
    ∃ o', BbrAdaptiveDrainState.execute c t o = some o' ∧ o'.m_state = o.m_state ∧
      o'.m_state_drain.m_inflight_limit = o.m_state_drain.m_inflight_limit ∧
      o'.m_state_drain.m_round_count = (o.m_state_drain.m_round_count + 1) % 2 ^ 32 := by
  have h2' : ¬ (o.m_state_drain.m_round_count + 1) % 4294967296 = 5 := by simpa using h2
  simp [BbrAdaptiveDrainState.execute, not_lt.mpr h1, h2']

/-- A round of `DRAIN` that meets an exit condition changes the machine to
`PROBE_BW`, provided the phase loop of `PROBE_BW` leaves. -/
theorem drain_execute_exit (c : Consts) (t : Tick) (o : TcpBbrAdaptive)
    (h : t.m_bytes_in_flight < o.m_state_drain.m_inflight_limit ∨
      (o.m_state_drain.m_round_count + 1) % 2 ^ 32 = 5)
    (hr : ∃ r ∈ t.rand, r % 8 ≠ 1) :
    ∃ o', BbrAdaptiveDrainState.execute c t o = some o' ∧ o'.m_state = some .probe_bw ∧
      o'.m_state_drain.m_round_count = (o.m_state_drain.m_round_count + 1) % 2 ^ 32 := by
  obtain ⟨o', hc, hs, -, hd, -, -, -⟩ := changeState_probe_bw_some c t
    { o with
      trace := o.trace ++ [Event.execute .drain]
      m_state_drain := { o.m_state_drain with
        m_round_count := (o.m_state_drain.m_round_count + 1) % 2 ^ 32 } } hr
  refine ⟨o', ?_, hs, ?_⟩
  · simp only [BbrAdaptiveDrainState.execute, if_pos h]
    exact hc
  · rw [hd]

/-- One `execute()` of `PROBE_BW` moves a phase in `0..7` to its successor
modulo 8. -/
theorem probe_bw_execute_gain_cycle (c : Consts) (o : TcpBbrAdaptive)
    (h : 0 ≤ o.m_state_probe_bw.m_gain_cycle ∧ o.m_state_probe_bw.m_gain_cycle ≤ 7) :
    (BbrAdaptiveProbeBWState.execute c o).m_state_probe_bw.m_gain_cycle
      = (o.m_state_probe_bw.m_gain_cycle + 1) % 8 := by
  simp only [BbrAdaptiveProbeBWState.execute]
  split_ifs <;> omega

/-- After `k` calls of `execute()` a phase `p` in `0..7` has become
`(p + k) % 8`. -/
theorem probe_bw_iterate_gain_cycle (c : Consts) (o : TcpBbrAdaptive) (k : Nat)
    (h : 0 ≤ o.m_state_probe_bw.m_gain_cycle ∧ o.m_state_probe_bw.m_gain_cycle ≤ 7) :
    ((BbrAdaptiveProbeBWState.execute c)^[k] o).m_state_probe_bw.m_gain_cycle
      = (o.m_state_probe_bw.m_gain_cycle + k) % 8 := by
  induction k with
  | zero => simp; omega
  | succ n ih =>
    rw [Function.iterate_succ_apply', probe_bw_execute_gain_cycle c _ (by rw [ih]; omega), ih]
    push_cast
    omega

/-- Changing to `PROBE_RTT` always returns and adds only hook events. -/
theorem changeState_probe_rtt (c : Consts) (t : Tick) (o : TcpBbrAdaptive) :
    ∃ o' hooks, changeState c t .probe_rtt o = some o' ∧ o'.m_state = some .probe_rtt ∧
      o'.trace = o.trace ++ hooks ∧ (∀ e ∈ hooks, e.isHook = true) := by
  unfold changeState BbrAdaptiveStateMachine.enter
  cases o.m_state with
  | none =>
    exact ⟨_, [Event.enter .probe_rtt], rfl, rfl, rfl, by simp [Event.isHook]⟩
  | some old =>
    exact ⟨_, [Event.exit old, Event.enter .probe_rtt], rfl, rfl,
      by simp [BbrAdaptiveProbeRTTState.enter, BbrAdaptiveState.exit],
      by simp [Event.isHook]⟩

/-- Changing to `DRAIN` always returns and adds only hook events. -/
theorem changeState_drain_trace (c : Consts) (t : Tick) (o : TcpBbrAdaptive) :
    ∃ o' hooks, changeState c t .drain o = some o' ∧
      o'.trace = o.trace ++ hooks ∧ (∀ e ∈ hooks, e.isHook = true) := by
  unfold changeState BbrAdaptiveStateMachine.enter
  cases o.m_state with
  | none =>
    exact ⟨_, [Event.enter .drain], rfl, rfl, by simp [Event.isHook]⟩
  | some old =>
    exact ⟨_, [Event.exit old, Event.enter .drain], rfl,
      by simp [BbrAdaptiveDrainState.enter, BbrAdaptiveState.exit],
      by simp [Event.isHook]⟩

/-- Changing to `PROBE_BW` adds only hook events, when the phase loop leaves. -/
theorem changeState_probe_bw_trace (c : Consts) (t : Tick) (o : TcpBbrAdaptive)
    (hr : ∃ r ∈ t.rand, r % 8 ≠ 1) :
    ∃ o' hooks, changeState c t .probe_bw o = some o' ∧
      o'.trace = o.trace ++ hooks ∧ (∀ e ∈ hooks, e.isHook = true) := by
  obtain ⟨o', hc, -, -, -, -, -, hooks, ht, hh⟩ := changeState_probe_bw_some c t o hr
  refine ⟨o', hooks, hc, ht, ?_⟩
  subst hh
  cases o.m_state <;> simp [Event.isHook]

/-- The `execute()` of any state returns when the phase loop of `PROBE_BW`
leaves; it is recorded once, followed by hook events only. -/
theorem execute_trace (c : Consts) (t : Tick) (p : StatePtr) (o : TcpBbrAdaptive)
    (hr : ∃ r ∈ t.rand, r % 8 ≠ 1) :
    ∃ o' hooks, execute c t p o = some o' ∧
      o'.trace = o.trace ++ Event.execute p :: hooks ∧ (∀ e ∈ hooks, e.isHook = true) := by
  cases p with
  | startup =>
    simp only [execute, BbrAdaptiveStartupState.execute]
    split_ifs
    · exact ⟨_, [], rfl, by simp, by simp⟩
    · exact ⟨_, [], rfl, by simp, by simp⟩
    · obtain ⟨o', hooks, hc, ht, hh⟩ := changeState_drain_trace c t
        { o with
          trace := o.trace ++ [Event.execute .startup]
          m_state_startup := { o.m_state_startup with
            m_full_bw_count := o.m_state_startup.m_full_bw_count + 1 } }
      exact ⟨o', hooks, hc, by simpa using ht, hh⟩
    · exact ⟨_, [], rfl, by simp, by simp⟩
  | drain =>
    simp only [execute, BbrAdaptiveDrainState.execute]
    split_ifs
    · obtain ⟨o', hooks, hc, ht, hh⟩ := changeState_probe_bw_trace c t
        { o with
          trace := o.trace ++ [Event.execute .drain]
          m_state_drain := { o.m_state_drain with
            m_round_count := (o.m_state_drain.m_round_count + 1) % 2 ^ 32 } } hr
      exact ⟨o', hooks, hc, by simpa using ht, hh⟩
    · exact ⟨_, [], rfl, by simp, by simp⟩
  | probe_bw =>
    exact ⟨_, [], rfl, by simp [BbrAdaptiveProbeBWState.execute], by simp⟩
  | probe_rtt =>
    simp only [execute, BbrAdaptiveProbeRTTState.execute]
    split_ifs
    · obtain ⟨o', hooks, hc, ht, hh⟩ := changeState_probe_bw_trace c t
        { o with trace := o.trace ++ [Event.execute .probe_rtt], m_cwnd := c.MIN_CWND * 1500 } hr
      exact ⟨o', hooks, hc, by simpa using ht, hh⟩
    · exact ⟨_, [], rfl, by simp, by simp⟩

/-- The steps of `update()` up to the culls: an optional forced change to
`PROBE_RTT` and one `execute()` of the state then active. -/
theorem update_steps (c : Consts) (t : Tick) (p : StatePtr) (o : TcpBbrAdaptive)
    (hact : o.m_state = some p) (hr : ∃ r ∈ t.rand, r % 8 ≠ 1) :
    ∃ o2 hooks1 hooks2,
      update c t o = some
        (if t.getRTT_culled ≤ 0 then cullBWwindow (cullRTTwindow o2)
         else Schedule t.getRTT_culled (cullBWwindow (cullRTTwindow o2))) ∧
      o2.trace = o.trace ++ hooks1 ++
        Event.execute (if t.checkProbeRTT then .probe_rtt else p) :: hooks2 ∧
      (∀ e ∈ hooks1, e.isHook = true) ∧ (∀ e ∈ hooks2, e.isHook = true) := by
  by_cases hf : t.checkProbeRTT = true
  · obtain ⟨o1, hooks1, hc, hs, ht1, hh1⟩ := changeState_probe_rtt c t o
    obtain ⟨o2, hooks2, he, ht2, hh2⟩ := execute_trace c t .probe_rtt o1 hr
    refine ⟨o2, hooks1, hooks2, ?_, ?_, hh1, hh2⟩
    · simp only [update, hact, hf, if_true, hc, Option.some_bind, hs, he, IsNegative]
      split_ifs <;> simp_all
    · rw [ht2, ht1, if_pos hf]
  · obtain ⟨o2, hooks2, he, ht2, hh2⟩ := execute_trace c t p o hr
    refine ⟨o2, [], hooks2, ?_, ?_, by simp, hh2⟩
    · simp only [update, hact, hf, Option.some_bind, he, IsNegative]
      split_ifs <;> simp_all
    · rw [ht2, if_neg hf]; simp

/-- A list of hook events has no other event. -/
theorem filter_not_isHook (l : List Event) (h : ∀ e ∈ l, e.isHook = true) :
    l.filter (fun e => !e.isHook) = [] := by
  rw [List.filter_eq_nil_iff]
  intro e he
  simp [h e he]

/-- A change of state returns, with the target active, when the phase loop of
`PROBE_BW` leaves. -/
theorem changeState_some (c : Consts) (t : Tick) (p : StatePtr) (o : TcpBbrAdaptive)
    (hr : p = .probe_bw → ∃ r ∈ t.rand, r % 8 ≠ 1) :
    ∃ o', changeState c t p o = some o' ∧ o'.m_state = some p := by
  cases p with
  | startup =>
    unfold changeState BbrAdaptiveStateMachine.enter
    cases o.m_state <;> simp [BbrAdaptiveStartupState.enter]
  | drain =>
    obtain ⟨o', hc, hs, -⟩ := changeState_drain c t o
    exact ⟨o', hc, hs⟩
  | probe_bw =>
    obtain ⟨o', hc, hs, -⟩ := changeState_probe_bw_some c t o (hr rfl)
    exact ⟨o', hc, hs⟩
  | probe_rtt =>
    obtain ⟨o', -, hc, hs, -⟩ := changeState_probe_rtt c t o
    exact ⟨o', hc, hs⟩

/-- The conversion `(uint32_t)` of a non-negative value below `2^32` is its
integer part. -/
theorem toUint32_of_range (q : ℚ) (h0 : 0 ≤ q) (h1 : q < 2 ^ 32) :
    toUint32 q = ⌊q⌋.toNat ∧ ((toUint32 q : Nat) : ℚ) ≤ q ∧ q < ((toUint32 q : Nat) : ℚ) + 1 := by
  have hfl : Rat.floor q = ⌊q⌋ := rfl
  have hnn : 0 ≤ ⌊q⌋ := Int.floor_nonneg.mpr h0
  have hlt : ⌊q⌋ < 2 ^ 32 := by
    have : (⌊q⌋ : ℚ) < ((2 ^ 32 : ℤ) : ℚ) := lt_of_le_of_lt (Int.floor_le q) (by exact_mod_cast h1)
    exact_mod_cast this
  have hmod : toUint32 q = ⌊q⌋.toNat := by
    unfold toUint32
    rw [hfl]
    apply Nat.mod_eq_of_lt
    omega
  have hcast : ((⌊q⌋.toNat : Nat) : ℚ) = (⌊q⌋ : ℚ) := by
    have : ((⌊q⌋.toNat : Nat) : ℤ) = ⌊q⌋ := Int.toNat_of_nonneg hnn
    exact_mod_cast congrArg (fun z : ℤ => (z : ℚ)) this
  refine ⟨hmod, ?_, ?_⟩
  · rw [hmod, hcast]; exact Int.floor_le q
  · rw [hmod, hcast]; exact Int.lt_floor_add_one q

/-- The byte count of `enter()` of `DRAIN` under rounding: with the
bandwidth-delay product `5404319552844595 * 2^-54` (the `double` nearest to
0.3) the product with 1000000 rounds to 300000 and the target is 37500, while
the integer part of the exact byte count is 37499. -/
theorem drain_enter_at_rounding :
    (gridConsts 34).fl (5404319552844595 / 2 ^ 54 * 1000000) = 300000 ∧
    (BbrAdaptiveDrainState.enter (gridConsts 34)
      { sampleTick with getBDP := 5404319552844595 / 2 ^ 54 }
      sampleFlow).m_state_drain.m_inflight_limit = 37500 ∧
    ⌊(5404319552844595 / 2 ^ 54 * 1000000 / 8 : ℚ)⌋ = 37499 := by
  have h1 : (gridConsts 34).fl (5404319552844595 / 2 ^ 54 * 1000000) = 300000 := by
    norm_num [gridConsts, sampleConsts]
  have h2 : (gridConsts 34).fl (300000 / 8) = 37500 := by
    norm_num [gridConsts, sampleConsts]
  refine ⟨h1, ?_, by norm_num⟩
  have hx : (BbrAdaptiveDrainState.enter (gridConsts 34)
      { sampleTick with getBDP := 5404319552844595 / 2 ^ 54 }
      sampleFlow).m_state_drain.m_inflight_limit = toUint32 37500 := by
    simp only [BbrAdaptiveDrainState.enter, h1, h2]
  rw [hx, (toUint32_of_range 37500 (by norm_num) (by norm_num)).1]
  norm_num
  rfl

/-! ## Effect of one tick -/

/-- A forced probe: `update()` with `checkProbeRTT()` true, from any active
state, ends in `PROBE_RTT` with a fresh deadline; the other states keep their
fields. -/
theorem update_forced (c : Consts) (t : Tick) (p : StatePtr) (o : TcpBbrAdaptive)
    (hact : o.m_state = some p) (hf : t.checkProbeRTT = true) :
    ∃ o', update c t o = some o' ∧ o'.m_state = some .probe_rtt ∧
      o'.m_pacing_gain = c.STEADY_FACTOR ∧ o'.m_cwnd_gain = c.STEADY_FACTOR ∧
      o'.m_cwnd = c.MIN_CWND * 1500 ∧
      o'.m_state_probe_rtt.m_probe_rtt_time = t.Now + max t.getRTT 200000000 ∧
      o'.m_state_startup = o.m_state_startup ∧ o'.m_state_drain = o.m_state_drain ∧
      o'.m_state_probe_bw = o.m_state_probe_bw ∧
      o'.trace = o.trace ++
        [Event.exit p, Event.enter .probe_rtt, Event.execute .probe_rtt,
          Event.cullRTTwindow, Event.cullBWwindow] ++
        (if t.getRTT_culled ≤ 0 then [] else [Event.Schedule t.getRTT_culled]) := by
  have hnot : ¬ t.Now > (if t.getRTT > 200000000 then t.getRTT else 200000000) + t.Now := by
    split_ifs <;> omega
  have hmax : (if t.getRTT > 200000000 then t.getRTT else 200000000) + t.Now
      = t.Now + max t.getRTT 200000000 := by
    split_ifs <;> omega
  by_cases hneg : t.getRTT_culled ≤ 0
  · refine ⟨_, by
      simp only [update, hact, hf, if_true, changeState, BbrAdaptiveStateMachine.enter,
        BbrAdaptiveProbeRTTState.enter, BbrAdaptiveState.exit, Option.some_bind, execute,
        BbrAdaptiveProbeRTTState.execute, hnot, if_false, cullRTTwindow, cullBWwindow, hneg,
        not_true_eq_false, IsNegative, decide_True]
      rfl, ?_⟩
    simp [hneg, hmax]
  · refine ⟨_, by
      simp only [update, hact, hf, if_true, changeState, BbrAdaptiveStateMachine.enter,
        BbrAdaptiveProbeRTTState.enter, BbrAdaptiveState.exit, Option.some_bind, execute,
        BbrAdaptiveProbeRTTState.execute, hnot, if_false, cullRTTwindow, cullBWwindow, hneg,
        not_false_eq_true, Schedule, IsNegative, decide_False, Bool.false_eq_true, if_true]
      rfl, ?_⟩
    simp [hneg, hmax]

/-- A tick without forced probe: `update()` returns what `execute()` of the
active state returns, up to the record of the culls and of the schedule
request. -/
theorem update_unforced (c : Consts) (t : Tick) (p : StatePtr) (o o2 : TcpBbrAdaptive)
    (hact : o.m_state = some p) (hf : t.checkProbeRTT = false)
    (he : execute c t p o = some o2) :
    ∃ o', update c t o = some o' ∧ o'.m_state = o2.m_state ∧
      o'.m_pacing_gain = o2.m_pacing_gain ∧ o'.m_cwnd_gain = o2.m_cwnd_gain ∧
      o'.m_cwnd = o2.m_cwnd ∧ o'.m_state_startup = o2.m_state_startup ∧
      o'.m_state_drain = o2.m_state_drain ∧ o'.m_state_probe_bw = o2.m_state_probe_bw ∧
      o'.m_state_probe_rtt = o2.m_state_probe_rtt := by
  simp only [update, hact, hf, Bool.false_eq_true, if_false, Option.some_bind, he]
  split_ifs <;> simp [Schedule, cullBWwindow, cullRTTwindow]

/-- Changing to `PROBE_BW` writes the steady or the high pacing gain. -/
theorem changeState_probe_bw_gains (c : Consts) (t : Tick) (o : TcpBbrAdaptive)
    (hr : ∃ r ∈ t.rand, r % 8 ≠ 1) :
    ∃ o', changeState c t .probe_bw o = some o' ∧ o'.m_state = some .probe_bw ∧
      (o'.m_pacing_gain = c.STEADY_FACTOR ∨
        o'.m_pacing_gain = c.STEADY_FACTOR + c.PROBE_FACTOR) := by
  obtain ⟨r, -, hp, -⟩ := pickGainCycle_of_mem t.rand hr
  unfold changeState BbrAdaptiveStateMachine.enter
  cases o.m_state <;>
    · simp only [BbrAdaptiveProbeBWState.enter, hp, BbrAdaptiveState.exit]
      refine ⟨_, rfl, rfl, ?_⟩
      by_cases h0 : ((r % 8 : Nat) : Int) = 0
      · exact Or.inr (if_pos h0)
      · exact Or.inl (if_neg h0)

/-- One `execute()` of `STARTUP` on a machine in `STARTUP`: either the machine
stays and the gains are untouched, or it changes to `DRAIN`, whose `enter()`
writes the pacing gain and zeroes the round count. -/
theorem startup_execute_cases (c : Consts) (t : Tick) (o : TcpBbrAdaptive)
    (hact : o.m_state = some .startup) :
    ∃ o', BbrAdaptiveStartupState.execute c t o = some o' ∧
      ((o'.m_state = some .startup ∧ o'.m_pacing_gain = o.m_pacing_gain ∧
          o'.m_cwnd_gain = o.m_cwnd_gain) ∨
        (o'.m_state = some .drain ∧ o'.m_pacing_gain = 1 / c.STARTUP_GAIN ∧
          o'.m_state_drain.m_round_count = 0)) := by
  simp only [BbrAdaptiveStartupState.execute]
  split_ifs
  · exact ⟨_, rfl, Or.inl ⟨hact, rfl, rfl⟩⟩
  · exact ⟨_, rfl, Or.inl ⟨hact, rfl, rfl⟩⟩
  · refine ⟨_, by
      simp only [changeState, hact, BbrAdaptiveStateMachine.enter]
      rfl, Or.inr ⟨rfl, rfl, rfl⟩⟩
  · exact ⟨_, rfl, Or.inl ⟨hact, rfl, rfl⟩⟩

/-- One `execute()` of `DRAIN` on a machine in `DRAIN`: either the machine stays,
the gains are untouched and the round count went up by one without reaching 5,
or it changes to `PROBE_BW`. -/
theorem drain_execute_cases (c : Consts) (t : Tick) (o : TcpBbrAdaptive)
    (hact : o.m_state = some .drain) (hr : ∃ r ∈ t.rand, r % 8 ≠ 1) :
    ∃ o', BbrAdaptiveDrainState.execute c t o = some o' ∧
      ((o'.m_state = some .drain ∧ o'.m_pacing_gain = o.m_pacing_gain ∧
          o'.m_state_drain.m_round_count = (o.m_state_drain.m_round_count + 1) % 2 ^ 32 ∧
          (o.m_state_drain.m_round_count + 1) % 2 ^ 32 ≠ 5) ∨
        (o'.m_state = some .probe_bw ∧
          (o'.m_pacing_gain = c.STEADY_FACTOR ∨
            o'.m_pacing_gain = c.STEADY_FACTOR + c.PROBE_FACTOR))) := by
  simp only [BbrAdaptiveDrainState.execute]
  split_ifs with h
  · obtain ⟨o', hc, hs, hg⟩ := changeState_probe_bw_gains c t
      { o with
        trace := o.trace ++ [Event.execute .drain]
        m_state_drain := { o.m_state_drain with
          m_round_count := (o.m_state_drain.m_round_count + 1) % 2 ^ 32 } } hr
    exact ⟨o', hc, Or.inr ⟨hs, hg⟩⟩
  · exact ⟨_, rfl, Or.inl ⟨hact, rfl, rfl, fun h5 => h (Or.inr h5)⟩⟩

/-- One `execute()` of `PROBE_BW`: the active state stays and the pacing gain is
the high, the low or the steady value. -/
theorem probe_bw_execute_cases (c : Consts) (o : TcpBbrAdaptive) :
    (BbrAdaptiveProbeBWState.execute c o).m_state = o.m_state ∧
      ((BbrAdaptiveProbeBWState.execute c o).m_pacing_gain = c.STEADY_FACTOR ∨
        (BbrAdaptiveProbeBWState.execute c o).m_pacing_gain
          = c.STEADY_FACTOR + c.PROBE_FACTOR ∨
        (BbrAdaptiveProbeBWState.execute c o).m_pacing_gain
          = (if c.NO_PACING then c.STEADY_FACTOR - c.DRAIN_FACTOR / 8
              else c.STEADY_FACTOR - c.DRAIN_FACTOR)) := by
  refine ⟨rfl, ?_⟩
  simp only [BbrAdaptiveProbeBWState.execute]
  split_ifs <;> simp

/-- One `execute()` of `PROBE_RTT` on a machine in `PROBE_RTT`: either the
machine stays and the gains are untouched, or it changes to `PROBE_BW`. -/
theorem probe_rtt_execute_cases (c : Consts) (t : Tick) (o : TcpBbrAdaptive)
    (hact : o.m_state = some .probe_rtt) (hr : ∃ r ∈ t.rand, r % 8 ≠ 1) :
    ∃ o', BbrAdaptiveProbeRTTState.execute c t o = some o' ∧
      ((o'.m_state = some .probe_rtt ∧ o'.m_pacing_gain = o.m_pacing_gain ∧
          o'.m_cwnd_gain = o.m_cwnd_gain) ∨
        (o'.m_state = some .probe_bw ∧
          (o'.m_pacing_gain = c.STEADY_FACTOR ∨
            o'.m_pacing_gain = c.STEADY_FACTOR + c.PROBE_FACTOR))) := by
  simp only [BbrAdaptiveProbeRTTState.execute]
  split_ifs
  · obtain ⟨o', hc, hs, hg⟩ := changeState_probe_bw_gains c t
      { o with trace := o.trace ++ [Event.execute .probe_rtt], m_cwnd := c.MIN_CWND * 1500 } hr
    exact ⟨o', hc, Or.inr ⟨hs, hg⟩⟩
  · exact ⟨_, rfl, Or.inl ⟨hact, rfl, rfl⟩⟩

/-- One tick without forced probe, by active state: what `update()` leaves
active, and what it leaves in the pacing gain and in the round count of
`DRAIN`. -/
theorem update_unforced_cases (c : Consts) (t : Tick) (p : StatePtr) (o : TcpBbrAdaptive)
    (hact : o.m_state = some p) (hf : t.checkProbeRTT = false)
    (hr : ∃ r ∈ t.rand, r % 8 ≠ 1) :
    ∃ o', update c t o = some o' ∧
      (p = .startup →
        (o'.m_state = some .startup ∧ o'.m_pacing_gain = o.m_pacing_gain ∧
          o'.m_cwnd_gain = o.m_cwnd_gain) ∨
        (o'.m_state = some .drain ∧ o'.m_pacing_gain = 1 / c.STARTUP_GAIN ∧
          o'.m_state_drain.m_round_count = 0)) ∧
      (p = .drain →
        (o'.m_state = some .drain ∧ o'.m_pacing_gain = o.m_pacing_gain ∧
          o'.m_state_drain.m_round_count = (o.m_state_drain.m_round_count + 1) % 2 ^ 32 ∧
          (o.m_state_drain.m_round_count + 1) % 2 ^ 32 ≠ 5) ∨
        (o'.m_state = some .probe_bw ∧
          (o'.m_pacing_gain = c.STEADY_FACTOR ∨
            o'.m_pacing_gain = c.STEADY_FACTOR + c.PROBE_FACTOR))) ∧
      (p = .probe_bw →
        o'.m_state = some .probe_bw ∧
          (o'.m_pacing_gain = c.STEADY_FACTOR ∨
            o'.m_pacing_gain = c.STEADY_FACTOR + c.PROBE_FACTOR ∨
            o'.m_pacing_gain = (if c.NO_PACING then c.STEADY_FACTOR - c.DRAIN_FACTOR / 8
              else c.STEADY_FACTOR - c.DRAIN_FACTOR))) ∧
      (p = .probe_rtt →
        (o'.m_state = some .probe_rtt ∧ o'.m_pacing_gain = o.m_pacing_gain ∧
          o'.m_cwnd_gain = o.m_cwnd_gain) ∨
        (o'.m_state = some .probe_bw ∧
          (o'.m_pacing_gain = c.STEADY_FACTOR ∨
            o'.m_pacing_gain = c.STEADY_FACTOR + c.PROBE_FACTOR))) := by
  cases p with
  | startup =>
    obtain ⟨o2, he, h2⟩ := startup_execute_cases c t o hact
    obtain ⟨o', hu, hs, hpg, hcg, -, -, hd, -, -⟩ := update_unforced c t .startup o o2 hact hf he
    refine ⟨o', hu, fun _ => ?_, (fun h => nomatch h), (fun h => nomatch h), (fun h => nomatch h)⟩
    rw [hs, hpg, hcg, hd]
    exact h2
  | drain =>
    obtain ⟨o2, he, h2⟩ := drain_execute_cases c t o hact hr
    obtain ⟨o', hu, hs, hpg, -, -, -, hd, -, -⟩ := update_unforced c t .drain o o2 hact hf he
    refine ⟨o', hu, (fun h => nomatch h), fun _ => ?_, (fun h => nomatch h), (fun h => nomatch h)⟩
    rw [hs, hpg, hd]
    exact h2
  | probe_bw =>
    obtain ⟨h1, h2⟩ := probe_bw_execute_cases c o
    obtain ⟨o', hu, hs, hpg, -⟩ := update_unforced c t .probe_bw o _ hact hf rfl
    refine ⟨o', hu, (fun h => nomatch h), (fun h => nomatch h), fun _ => ?_, (fun h => nomatch h)⟩
    rw [hs, hpg, h1]
    exact ⟨hact, h2⟩
  | probe_rtt =>
    obtain ⟨o2, he, h2⟩ := probe_rtt_execute_cases c t o hact hr
    obtain ⟨o', hu, hs, hpg, hcg, -⟩ := update_unforced c t .probe_rtt o o2 hact hf he
    refine ⟨o', hu, (fun h => nomatch h), (fun h => nomatch h), (fun h => nomatch h), fun _ => ?_⟩
    rw [hs, hpg, hcg]
    exact h2

/-- Ticks that all carry a forced probe keep an active machine in
`PROBE_RTT`. -/
theorem updates_all_forced (c : Consts) (l : List Tick) (o : TcpBbrAdaptive)
    (hact : o.m_state = some .probe_rtt) (hf : ∀ t ∈ l, t.checkProbeRTT = true) :
    ∃ o', updates c l o = some o' ∧ o'.m_state = some .probe_rtt := by
  induction l generalizing o with
  | nil => exact ⟨o, rfl, hact⟩
  | cons t rest ih =>
    obtain ⟨o1, hu, hs, -⟩ :=
      update_forced c t .probe_rtt o hact (hf t (List.mem_cons_self _ _))
    obtain ⟨o', hus, hs'⟩ := ih o1 hs (fun x hx => hf x (List.mem_cons_of_mem _ hx))
    exact ⟨o', by simp [updates, hu, hus], hs'⟩

/-- Re-entering `STARTUP` through `changeState` returns and keeps the fields of
the `STARTUP` state. -/
theorem changeState_startup (c : Consts) (t : Tick) (o : TcpBbrAdaptive) :
    ∃ o', changeState c t .startup o = some o' ∧ o'.m_state = some .startup ∧
      o'.m_state_startup = o.m_state_startup ∧
      o'.m_pacing_gain = c.STARTUP_GAIN ∧ o'.m_cwnd_gain = c.STARTUP_GAIN := by
  unfold changeState BbrAdaptiveStateMachine.enter
  cases o.m_state <;> simp [BbrAdaptiveStartupState.enter, BbrAdaptiveState.exit]

/-- One `execute()` of `STARTUP` with a non-negative estimate: the best
bandwidth becomes the estimate when the growth test holds, and stays
otherwise. -/
theorem startup_execute_full_bw (c : Consts) (t : Tick) (o : TcpBbrAdaptive)
    (h0 : 0 ≤ t.getBW) :
    ∃ o', BbrAdaptiveStartupState.execute c t o = some o' ∧
      o'.m_state_startup.m_full_bw =
        if c.fl t.getBW > c.fl (o.m_state_startup.m_full_bw * c.STARTUP_THRESHOLD)
        then t.getBW else o.m_state_startup.m_full_bw := by
  simp only [BbrAdaptiveStartupState.execute, if_neg (not_lt.mpr h0)]
  by_cases hg : c.fl t.getBW > c.fl (o.m_state_startup.m_full_bw * c.STARTUP_THRESHOLD)
  · simp only [if_pos hg]
    exact ⟨_, rfl, rfl⟩
  · simp only [if_neg hg]
    split_ifs
    · unfold changeState BbrAdaptiveStateMachine.enter
      cases o.m_state <;> exact ⟨_, rfl, rfl⟩
    · exact ⟨_, rfl, rfl⟩

/-- With a threshold of at least 1, after a sequence of `execute()` calls whose
estimates are non-negative `double` values, the best bandwidth is a `double`
that is at most the running maximum `m` of the estimates, and `m` is at most the
product of the best bandwidth and `STARTUP_THRESHOLD` as the `double`
multiplication yields it. -/
theorem startupExecutes_full_bw (c : Consts) (hT : 1 ≤ c.STARTUP_THRESHOLD) (l : List Tick) :
    ∀ (o : TcpBbrAdaptive) (m : ℚ), 0 ≤ o.m_state_startup.m_full_bw →
      c.fl o.m_state_startup.m_full_bw = o.m_state_startup.m_full_bw →
      o.m_state_startup.m_full_bw ≤ m →
      m ≤ c.fl (o.m_state_startup.m_full_bw * c.STARTUP_THRESHOLD) →
      (∀ t ∈ l, 0 ≤ t.getBW ∧ c.fl t.getBW = t.getBW) →
      ∃ o', startupExecutes c l o = some o' ∧
        c.fl o'.m_state_startup.m_full_bw = o'.m_state_startup.m_full_bw ∧
        o'.m_state_startup.m_full_bw ≤ (l.map Tick.getBW).foldl max m ∧
        (l.map Tick.getBW).foldl max m
          ≤ c.fl (o'.m_state_startup.m_full_bw * c.STARTUP_THRESHOLD) := by
  induction l with
  | nil => intro o m _ hd h1 h2 _; exact ⟨o, rfl, hd, h1, h2⟩
  | cons t rest ih =>
    intro o m hb hd h1 h2 hnn
    obtain ⟨ht, htd⟩ := hnn t (List.mem_cons_self _ _)
    obtain ⟨o1, he, hfb⟩ := startup_execute_full_bw c t o ht
    have hstep : 0 ≤ o1.m_state_startup.m_full_bw ∧
        c.fl o1.m_state_startup.m_full_bw = o1.m_state_startup.m_full_bw ∧
        o1.m_state_startup.m_full_bw ≤ max m t.getBW ∧
        max m t.getBW ≤ c.fl (o1.m_state_startup.m_full_bw * c.STARTUP_THRESHOLD) := by
      rw [hfb]
      by_cases hg : c.fl t.getBW > c.fl (o.m_state_startup.m_full_bw * c.STARTUP_THRESHOLD)
      · rw [if_pos hg]
        have hbw : t.getBW ≤ t.getBW * c.STARTUP_THRESHOLD := by nlinarith
        have hfl : t.getBW ≤ c.fl (t.getBW * c.STARTUP_THRESHOLD) := by
          have := c.fl_mono _ _ hbw
          rwa [htd] at this
        rw [htd] at hg
        exact ⟨ht, htd, le_max_right _ _, max_le (by linarith) hfl⟩
      · rw [if_neg hg]
        have hle := not_lt.mp hg
        rw [htd] at hle
        exact ⟨hb, hd, le_trans h1 (le_max_left _ _), max_le h2 hle⟩
    obtain ⟨o', hes, hd', hle, hge⟩ := ih o1 (max m t.getBW) hstep.1 hstep.2.1 hstep.2.2.1
      hstep.2.2.2 (fun x hx => hnn x (List.mem_cons_of_mem _ hx))
    exact ⟨o', by simp [startupExecutes, he, hes], hd', by simpa using hle,
      by simpa using hge⟩

/-- One tick keeps the gains in step with the active state: if they are the
gains of the active state `p` before the tick, they are the gains of the active
state `q` after it. -/
theorem update_keeps_gains (c : Consts) (t : Tick) (p : StatePtr) (o : TcpBbrAdaptive)
    (hact : o.m_state = some p) (hr : ∃ r ∈ t.rand, r % 8 ≠ 1)
    (h1 : p = .startup → o.m_pacing_gain = c.STARTUP_GAIN ∧ o.m_cwnd_gain = c.STARTUP_GAIN)
    (h2 : p = .drain → o.m_pacing_gain = 1 / c.STARTUP_GAIN)
    (h3 : p = .probe_rtt →
      o.m_pacing_gain = c.STEADY_FACTOR ∧ o.m_cwnd_gain = c.STEADY_FACTOR) :
    ∃ o' q, update c t o = some o' ∧ o'.m_state = some q ∧
      (q = .startup → o'.m_pacing_gain = c.STARTUP_GAIN ∧ o'.m_cwnd_gain = c.STARTUP_GAIN) ∧
      (q = .drain → o'.m_pacing_gain = 1 / c.STARTUP_GAIN) ∧
      (q = .probe_rtt →
        o'.m_pacing_gain = c.STEADY_FACTOR ∧ o'.m_cwnd_gain = c.STEADY_FACTOR) ∧
      (q = .probe_bw →
        o'.m_pacing_gain = c.STEADY_FACTOR ∨
        o'.m_pacing_gain = c.STEADY_FACTOR + c.PROBE_FACTOR ∨
        o'.m_pacing_gain = (if c.NO_PACING then c.STEADY_FACTOR - c.DRAIN_FACTOR / 8
          else c.STEADY_FACTOR - c.DRAIN_FACTOR)) := by
  by_cases hf : t.checkProbeRTT = true
  · obtain ⟨o', hu, hs, hpg, hcg, -⟩ := update_forced c t p o hact hf
    exact ⟨o', .probe_rtt, hu, hs, (fun h => nomatch h), (fun h => nomatch h),
      (fun _ => ⟨hpg, hcg⟩), (fun h => nomatch h)⟩
  · have hf' : t.checkProbeRTT = false := by simpa using hf
    obtain ⟨o', hu, c1, c2, c3, c4⟩ := update_unforced_cases c t p o hact hf' hr
    cases p with
    | startup =>
      rcases c1 rfl with ⟨hs, hpg, hcg⟩ | ⟨hs, hpg, -⟩
      · exact ⟨o', .startup, hu, hs, (fun _ => ⟨hpg.trans (h1 rfl).1, hcg.trans (h1 rfl).2⟩),
          (fun h => nomatch h), (fun h => nomatch h), (fun h => nomatch h)⟩
      · exact ⟨o', .drain, hu, hs, (fun h => nomatch h), (fun _ => hpg),
          (fun h => nomatch h), (fun h => nomatch h)⟩
    | drain =>
      rcases c2 rfl with ⟨hs, hpg, -⟩ | ⟨hs, hg⟩
      · exact ⟨o', .drain, hu, hs, (fun h => nomatch h), (fun _ => hpg.trans (h2 rfl)),
          (fun h => nomatch h), (fun h => nomatch h)⟩
      · exact ⟨o', .probe_bw, hu, hs, (fun h => nomatch h), (fun h => nomatch h),
          (fun h => nomatch h),
          (fun _ => hg.elim Or.inl (fun h => Or.inr (Or.inl h)))⟩
    | probe_bw =>
      obtain ⟨hs, hg⟩ := c3 rfl
      exact ⟨o', .probe_bw, hu, hs, (fun h => nomatch h), (fun h => nomatch h),
        (fun h => nomatch h), (fun _ => hg)⟩
    | probe_rtt =>
      rcases c4 rfl with ⟨hs, hpg, hcg⟩ | ⟨hs, hg⟩
      · exact ⟨o', .probe_rtt, hu, hs, (fun h => nomatch h), (fun h => nomatch h),
          (fun _ => ⟨hpg.trans (h3 rfl).1, hcg.trans (h3 rfl).2⟩), (fun h => nomatch h)⟩
      · exact ⟨o', .probe_bw, hu, hs, (fun h => nomatch h), (fun h => nomatch h),
          (fun h => nomatch h),
          (fun _ => hg.elim Or.inl (fun h => Or.inr (Or.inl h)))⟩

/-- A sequence of ticks keeps the gains in step with the active state. -/
theorem updates_keep_gains (c : Consts) (l : List Tick) :
    ∀ (p : StatePtr) (o : TcpBbrAdaptive), o.m_state = some p →
      (∀ t ∈ l, ∃ r ∈ t.rand, r % 8 ≠ 1) →
      (p = .startup → o.m_pacing_gain = c.STARTUP_GAIN ∧ o.m_cwnd_gain = c.STARTUP_GAIN) →
      (p = .drain → o.m_pacing_gain = 1 / c.STARTUP_GAIN) →
      (p = .probe_rtt →
        o.m_pacing_gain = c.STEADY_FACTOR ∧ o.m_cwnd_gain = c.STEADY_FACTOR) →
      (p = .probe_bw →
        o.m_pacing_gain = c.STEADY_FACTOR ∨
        o.m_pacing_gain = c.STEADY_FACTOR + c.PROBE_FACTOR ∨
        o.m_pacing_gain = (if c.NO_PACING then c.STEADY_FACTOR - c.DRAIN_FACTOR / 8
          else c.STEADY_FACTOR - c.DRAIN_FACTOR)) →
      ∃ o' q, updates c l o = some o' ∧ o'.m_state = some q ∧
        (q = .startup →
          o'.m_pacing_gain = c.STARTUP_GAIN ∧ o'.m_cwnd_gain = c.STARTUP_GAIN) ∧
        (q = .drain → o'.m_pacing_gain = 1 / c.STARTUP_GAIN) ∧
        (q = .probe_rtt →
          o'.m_pacing_gain = c.STEADY_FACTOR ∧ o'.m_cwnd_gain = c.STEADY_FACTOR) ∧
        (q = .probe_bw →
          o'.m_pacing_gain = c.STEADY_FACTOR ∨
          o'.m_pacing_gain = c.STEADY_FACTOR + c.PROBE_FACTOR ∨
          o'.m_pacing_gain = (if c.NO_PACING then c.STEADY_FACTOR - c.DRAIN_FACTOR / 8
            else c.STEADY_FACTOR - c.DRAIN_FACTOR)) := by
  induction l with
  | nil => intro p o hact _ h1 h2 h3 h4; exact ⟨o, p, rfl, hact, h1, h2, h3, h4⟩
  | cons t rest ih =>
    intro p o hact hr h1 h2 h3 _
    obtain ⟨o1, q, hu, hs, g1, g2, g3, g4⟩ :=
      update_keeps_gains c t p o hact (hr t (List.mem_cons_self _ _)) h1 h2 h3
    obtain ⟨o', q', hus, hs', k⟩ :=
      ih q o1 hs (fun x hx => hr x (List.mem_cons_of_mem _ hx)) g1 g2 g3 g4
    exact ⟨o', q', by simp [updates, hu, hus], hs', k⟩

/-- A change of state leaves the round count of an active `DRAIN` at most 4. -/
theorem changeState_drain_count (c : Consts) (t : Tick) (p : StatePtr) (o : TcpBbrAdaptive)
    (hr : ∃ r ∈ t.rand, r % 8 ≠ 1) :
    ∃ o', changeState c t p o = some o' ∧
      (o'.m_state = some .drain → o'.m_state_drain.m_round_count ≤ 4) := by
  by_cases hp : p = .drain
  · subst hp
    obtain ⟨o', hc, -, -, hcnt, -⟩ := changeState_drain c t o
    exact ⟨o', hc, fun _ => by rw [hcnt]; decide⟩
  · obtain ⟨o', hc, hs⟩ := changeState_some c t p o (fun _ => hr)
    refine ⟨o', hc, fun h => ?_⟩
    rw [hs] at h
    exact absurd (Option.some.inj h) hp

/-- One tick leaves the round count of an active `DRAIN` at most 4 when it was
so before. -/
theorem update_drain_count (c : Consts) (t : Tick) (o : TcpBbrAdaptive)
    (hr : ∃ r ∈ t.rand, r % 8 ≠ 1)
    (hinv : o.m_state = some .drain → o.m_state_drain.m_round_count ≤ 4) :
    ∃ o', update c t o = some o' ∧
      (o'.m_state = some .drain → o'.m_state_drain.m_round_count ≤ 4) := by
  cases hact : o.m_state with
  | none => exact ⟨o, by simp only [update, hact], hinv⟩
  | some p =>
    by_cases hf : t.checkProbeRTT = true
    · obtain ⟨o', hu, hs, -⟩ := update_forced c t p o hact hf
      refine ⟨o', hu, fun h => ?_⟩
      rw [hs] at h
      exact nomatch h
    · have hf' : t.checkProbeRTT = false := by simpa using hf
      obtain ⟨o', hu, c1, c2, c3, c4⟩ := update_unforced_cases c t p o hact hf' hr
      refine ⟨o', hu, fun h => ?_⟩
      cases p with
      | startup =>
        rcases c1 rfl with ⟨hs, -⟩ | ⟨-, -, hcnt⟩
        · rw [hs] at h; exact nomatch h
        · rw [hcnt]; decide
      | drain =>
        rcases c2 rfl with ⟨-, -, hcnt, hne⟩ | ⟨hs, -⟩
        · have h4 := hinv hact
          rw [hcnt]
          omega
        · rw [hs] at h; exact nomatch h
      | probe_bw =>
        rw [(c3 rfl).1] at h; exact nomatch h
      | probe_rtt =>
        rcases c4 rfl with ⟨hs, -⟩ | ⟨hs, -⟩ <;> (rw [hs] at h; exact nomatch h)

/-- Any sequence of calls on a machine constructed without active state leaves
the round count of an active `DRAIN` at most 4. -/
theorem runCalls_drain_count (c : Consts) (l : List Call) :
    ∀ o : TcpBbrAdaptive,
      (o.m_state = some .drain → o.m_state_drain.m_round_count ≤ 4) →
      (∀ x ∈ l, ∃ r ∈ x.tick.rand, r % 8 ≠ 1) →
      ∃ o', runCalls c l o = some o' ∧
        (o'.m_state = some .drain → o'.m_state_drain.m_round_count ≤ 4) := by
  induction l with
  | nil => intro o hinv _; exact ⟨o, rfl, hinv⟩
  | cons x rest ih =>
    intro o hinv hr
    have hx := hr x (List.mem_cons_self _ _)
    have hrest : ∀ y ∈ rest, ∃ r ∈ y.tick.rand, r % 8 ≠ 1 :=
      fun y hy => hr y (List.mem_cons_of_mem _ hy)
    cases x with
    | changeState t p =>
      obtain ⟨o1, hc, h1⟩ := changeState_drain_count c t p o hx
      obtain ⟨o', hrun, h'⟩ := ih o1 h1 hrest
      exact ⟨o', by simp [runCalls, hc, hrun], h'⟩
    | update t =>
      obtain ⟨o1, hu, h1⟩ := update_drain_count c t o hx hinv
      obtain ⟨o', hrun, h'⟩ := ih o1 h1 hrest
      exact ⟨o', by simp [runCalls, hu, hrun], h'⟩

/-- Ticks on a machine in `PROBE_BW` or `PROBE_RTT` leave it in one of the
two. -/
theorem updates_after_drain (c : Consts) (l : List Tick) :
    ∀ o : TcpBbrAdaptive, (o.m_state = some .probe_bw ∨ o.m_state = some .probe_rtt) →
      (∀ t ∈ l, ∃ r ∈ t.rand, r % 8 ≠ 1) →
      ∃ o', updates c l o = some o' ∧
        (o'.m_state = some .probe_bw ∨ o'.m_state = some .probe_rtt) := by
  induction l with
  | nil => intro o h _; exact ⟨o, rfl, h⟩
  | cons t rest ih =>
    intro o h hr
    have ht := hr t (List.mem_cons_self _ _)
    have hrest : ∀ y ∈ rest, ∃ r ∈ y.rand, r % 8 ≠ 1 :=
      fun y hy => hr y (List.mem_cons_of_mem _ hy)
    have hstep : ∃ o1, update c t o = some o1 ∧
        (o1.m_state = some .probe_bw ∨ o1.m_state = some .probe_rtt) := by
      by_cases hf : t.checkProbeRTT = true
      · rcases h with h | h
        · obtain ⟨o1, hu, hs, -⟩ := update_forced c t .probe_bw o h hf
          exact ⟨o1, hu, Or.inr hs⟩
        · obtain ⟨o1, hu, hs, -⟩ := update_forced c t .probe_rtt o h hf
          exact ⟨o1, hu, Or.inr hs⟩
      · have hf' : t.checkProbeRTT = false := by simpa using hf
        rcases h with h | h
        · obtain ⟨o1, hu, -, -, c3, -⟩ := update_unforced_cases c t .probe_bw o h hf' ht
          exact ⟨o1, hu, Or.inl (c3 rfl).1⟩
        · obtain ⟨o1, hu, -, -, -, c4⟩ := update_unforced_cases c t .probe_rtt o h hf' ht
          rcases c4 rfl with ⟨hs, -⟩ | ⟨hs, -⟩
          · exact ⟨o1, hu, Or.inr hs⟩
          · exact ⟨o1, hu, Or.inl hs⟩
    obtain ⟨o1, hu, h1⟩ := hstep
    obtain ⟨o', hus, h'⟩ := ih o1 h1 hrest
    exact ⟨o', by simp [updates, hu, hus], h'⟩

/-- A machine in `DRAIN` with round count `n <= 4` has left `DRAIN` after
`5 - n` ticks, and does not come back. -/
theorem updates_leave_drain (c : Consts) (l : List Tick) :
    ∀ o : TcpBbrAdaptive, o.m_state = some .drain → o.m_state_drain.m_round_count ≤ 4 →
      5 ≤ o.m_state_drain.m_round_count + l.length →
      (∀ t ∈ l, ∃ r ∈ t.rand, r % 8 ≠ 1) →
      ∃ o', updates c l o = some o' ∧
        (o'.m_state = some .probe_bw ∨ o'.m_state = some .probe_rtt) := by
  induction l with
  | nil =>
    intro o _ h4 h5 _
    simp only [List.length_nil] at h5
    omega
  | cons t rest ih =>
    intro o hact h4 h5 hr
    have ht := hr t (List.mem_cons_self _ _)
    have hrest : ∀ y ∈ rest, ∃ r ∈ y.rand, r % 8 ≠ 1 :=
      fun y hy => hr y (List.mem_cons_of_mem _ hy)
    simp only [List.length_cons] at h5
    by_cases hf : t.checkProbeRTT = true
    · obtain ⟨o1, hu, hs, -⟩ := update_forced c t .drain o hact hf
      obtain ⟨o', hus, h'⟩ := updates_after_drain c rest o1 (Or.inr hs) hrest
      exact ⟨o', by simp [updates, hu, hus], h'⟩
    · have hf' : t.checkProbeRTT = false := by simpa using hf
      obtain ⟨o1, hu, -, c2, -, -⟩ := update_unforced_cases c t .drain o hact hf' ht
      rcases c2 rfl with ⟨hs, -, hcnt, hne⟩ | ⟨hs, -⟩
      · obtain ⟨o', hus, h'⟩ := ih o1 hs (by rw [hcnt]; omega) (by rw [hcnt]; omega) hrest
        exact ⟨o', by simp [updates, hu, hus], h'⟩
      · obtain ⟨o', hus, h'⟩ := updates_after_drain c rest o1 (Or.inl hs) hrest
        exact ⟨o', by simp [updates, hu, hus], h'⟩

/-! ## Claims -/

/-- C1. Startup growth-stall transition: from a `STARTUP` state with stall
count 0 and best bandwidth `b`, three `execute()` calls that each read a
non-negative estimate not above `b * STARTUP_THRESHOLD` leave the machine in
`STARTUP` after the first and the second call (stall count 1, then 2), and the
third call brings the stall count to 3 and the machine to `DRAIN`. -/
theorem startup_growth_stall_transition (c : Consts) (t1 t2 t3 : Tick) (o : TcpBbrAdaptive)
    (b : ℚ) (hact : o.m_state = some .startup)
    (hb : o.m_state_startup.m_full_bw = b) (hcnt : o.m_state_startup.m_full_bw_count = 0)
    (h1 : 0 ≤ t1.getBW ∧ t1.getBW ≤ b * c.STARTUP_THRESHOLD)
    (h2 : 0 ≤ t2.getBW ∧ t2.getBW ≤ b * c.STARTUP_THRESHOLD)
    (h3 : 0 ≤ t3.getBW ∧ t3.getBW ≤ b * c.STARTUP_THRESHOLD) :
    ∃ o1 o2 o3,
      BbrAdaptiveStartupState.execute c t1 o = some o1 ∧
      getStateType o1 = some .STARTUP_STATE ∧ o1.m_state_startup.m_full_bw_count = 1 ∧
      BbrAdaptiveStartupState.execute c t2 o1 = some o2 ∧
      getStateType o2 = some .STARTUP_STATE ∧ o2.m_state_startup.m_full_bw_count = 2 ∧
      BbrAdaptiveStartupState.execute c t3 o2 = some o3 ∧
      getStateType o3 = some .DRAIN_STATE ∧ o3.m_state_startup.m_full_bw_count = 3 := by
  subst hb
  obtain ⟨o1, e1, s1, b1, c1⟩ :=
    startup_execute_stall c t1 o h1.1 h1.2 (by rw [hcnt]; decide)
  obtain ⟨o2, e2, s2, b2, c2⟩ :=
    startup_execute_stall c t2 o1 h2.1 (by rw [b1]; exact h2.2) (by rw [c1, hcnt]; decide)
  obtain ⟨o3, e3, s3, -, c3⟩ :=
    startup_execute_drain c t3 o2 h3.1 (by rw [b2, b1]; exact h3.2)
      (by rw [c2, c1, hcnt]; decide)
  refine ⟨o1, o2, o3, e1, ?_, ?_, e2, ?_, ?_, e3, ?_, ?_⟩
  · simp [getStateType, s1, hact, StatePtr.getType]
  · rw [c1, hcnt]; rfl
  · simp [getStateType, s2, s1, hact, StatePtr.getType]
  · rw [c2, c1, hcnt]; rfl
  · simp [getStateType, s3, StatePtr.getType]
  · rw [c3, c2, c1, hcnt]; rfl

/-- Witness of C1: best bandwidth 100 and the estimates 100, 100, 100. -/
theorem startup_growth_stall_transition_witness :
    ∃ o1 o2 o3,
      BbrAdaptiveStartupState.execute sampleConsts sampleTick
        { sampleFlow with m_state := some .startup,
                          m_state_startup := { m_full_bw := 100, m_full_bw_count := 0 } }
        = some o1 ∧
      getStateType o1 = some .STARTUP_STATE ∧ o1.m_state_startup.m_full_bw_count = 1 ∧
      BbrAdaptiveStartupState.execute sampleConsts sampleTick o1 = some o2 ∧
      getStateType o2 = some .STARTUP_STATE ∧ o2.m_state_startup.m_full_bw_count = 2 ∧
      BbrAdaptiveStartupState.execute sampleConsts sampleTick o2 = some o3 ∧
      getStateType o3 = some .DRAIN_STATE ∧ o3.m_state_startup.m_full_bw_count = 3 :=
  startup_growth_stall_transition sampleConsts sampleTick sampleTick sampleTick
    { sampleFlow with m_state := some .startup,
                      m_state_startup := { m_full_bw := 100, m_full_bw_count := 0 } }
    100 rfl rfl rfl
    (by norm_num [sampleTick, sampleConsts]) (by norm_num [sampleTick, sampleConsts])
    (by norm_num [sampleTick, sampleConsts])

/-- C2. Drain exit by inflight: for a `DRAIN` state with inflight target `T`
(and any round count), an `execute()` call that sees fewer than `T` bytes in
flight changes the machine to `PROBE_BW` in that very call; the random source
is assumed to yield a phase other than 1, so that entering `PROBE_BW` returns. -/
theorem drain_exit_by_inflight (c : Consts) (t : Tick) (o : TcpBbrAdaptive) (T : Nat)
    (hT : o.m_state_drain.m_inflight_limit = T) (hlt : t.m_bytes_in_flight < T)
    (hr : ∃ r ∈ t.rand, r % 8 ≠ 1) :
    ∃ o', BbrAdaptiveDrainState.execute c t o = some o' ∧
      getStateType o' = some .PROBE_BW_STATE := by
  obtain ⟨o', he, hs, -⟩ := drain_execute_exit c t o (Or.inl (by rw [hT]; exact hlt)) hr
  exact ⟨o', he, by simp [getStateType, hs, StatePtr.getType]⟩

/-- Witness of C2: target 5000, 4000 bytes in flight, first round. -/
theorem drain_exit_by_inflight_witness :
    ∃ o', BbrAdaptiveDrainState.execute sampleConsts sampleTick
        { sampleFlow with m_state := some .drain,
                          m_state_drain := { m_inflight_limit := 5000, m_round_count := 0 } }
        = some o' ∧
      getStateType o' = some .PROBE_BW_STATE :=
  drain_exit_by_inflight sampleConsts sampleTick
    { sampleFlow with m_state := some .drain,
                      m_state_drain := { m_inflight_limit := 5000, m_round_count := 0 } }
    5000 rfl (by decide) ⟨4, by decide, by decide⟩

/-- C3. Drain exit by round cap: from a `DRAIN` state with round count 0, if
the bytes in flight are at least the inflight target at every `execute()` call,
the first four calls leave the machine in `DRAIN` and the fifth changes it to
`PROBE_BW`; the random source of the fifth call is assumed to yield a phase
other than 1, so that entering `PROBE_BW` returns. -/
theorem drain_exit_by_round_cap (c : Consts) (t1 t2 t3 t4 t5 : Tick) (o : TcpBbrAdaptive)
    (hact : o.m_state = some .drain) (hcnt : o.m_state_drain.m_round_count = 0)
    (h1 : o.m_state_drain.m_inflight_limit ≤ t1.m_bytes_in_flight)
    (h2 : o.m_state_drain.m_inflight_limit ≤ t2.m_bytes_in_flight)
    (h3 : o.m_state_drain.m_inflight_limit ≤ t3.m_bytes_in_flight)
    (h4 : o.m_state_drain.m_inflight_limit ≤ t4.m_bytes_in_flight)
    (_h5 : o.m_state_drain.m_inflight_limit ≤ t5.m_bytes_in_flight)
    (hr : ∃ r ∈ t5.rand, r % 8 ≠ 1) :
    ∃ o1 o2 o3 o4 o5,
      BbrAdaptiveDrainState.execute c t1 o = some o1 ∧ getStateType o1 = some .DRAIN_STATE ∧
      BbrAdaptiveDrainState.execute c t2 o1 = some o2 ∧ getStateType o2 = some .DRAIN_STATE ∧
      BbrAdaptiveDrainState.execute c t3 o2 = some o3 ∧ getStateType o3 = some .DRAIN_STATE ∧
      BbrAdaptiveDrainState.execute c t4 o3 = some o4 ∧ getStateType o4 = some .DRAIN_STATE ∧
      BbrAdaptiveDrainState.execute c t5 o4 = some o5 ∧
      getStateType o5 = some .PROBE_BW_STATE := by
  obtain ⟨o1, e1, s1, l1, c1⟩ := drain_execute_stay c t1 o h1 (by rw [hcnt]; decide)
  rw [hcnt] at c1
  obtain ⟨o2, e2, s2, l2, c2⟩ :=
    drain_execute_stay c t2 o1 (by rw [l1]; exact h2) (by rw [c1]; decide)
  rw [c1] at c2
  obtain ⟨o3, e3, s3, l3, c3⟩ :=
    drain_execute_stay c t3 o2 (by rw [l2, l1]; exact h3) (by rw [c2]; decide)
  rw [c2] at c3
  obtain ⟨o4, e4, s4, -, c4⟩ :=
    drain_execute_stay c t4 o3 (by rw [l3, l2, l1]; exact h4) (by rw [c3]; decide)
  rw [c3] at c4
  obtain ⟨o5, e5, s5, -⟩ := drain_execute_exit c t5 o4 (Or.inr (by rw [c4]; decide)) hr
  refine ⟨o1, o2, o3, o4, o5, e1, ?_, e2, ?_, e3, ?_, e4, ?_, e5, ?_⟩
  · simp [getStateType, s1, hact, StatePtr.getType]
  · simp [getStateType, s2, s1, hact, StatePtr.getType]
  · simp [getStateType, s3, s2, s1, hact, StatePtr.getType]
  · simp [getStateType, s4, s3, s2, s1, hact, StatePtr.getType]
  · simp [getStateType, s5, StatePtr.getType]

/-- Witness of C3: target 5000 and 9000 bytes in flight at each of five calls. -/
theorem drain_exit_by_round_cap_witness :
    ∃ o1 o2 o3 o4 o5,
      BbrAdaptiveDrainState.execute sampleConsts busyTick
        { sampleFlow with m_state := some .drain,
                          m_state_drain := { m_inflight_limit := 5000, m_round_count := 0 } }
        = some o1 ∧ getStateType o1 = some .DRAIN_STATE ∧
      BbrAdaptiveDrainState.execute sampleConsts busyTick o1 = some o2 ∧
      getStateType o2 = some .DRAIN_STATE ∧
      BbrAdaptiveDrainState.execute sampleConsts busyTick o2 = some o3 ∧
      getStateType o3 = some .DRAIN_STATE ∧
      BbrAdaptiveDrainState.execute sampleConsts busyTick o3 = some o4 ∧
      getStateType o4 = some .DRAIN_STATE ∧
      BbrAdaptiveDrainState.execute sampleConsts busyTick o4 = some o5 ∧
      getStateType o5 = some .PROBE_BW_STATE :=
  drain_exit_by_round_cap sampleConsts busyTick busyTick busyTick busyTick busyTick
    { sampleFlow with m_state := some .drain,
                      m_state_drain := { m_inflight_limit := 5000, m_round_count := 0 } }
    rfl rfl (by decide) (by decide) (by decide) (by decide) (by decide)
    ⟨4, by decide, by decide⟩

/-- C4. ProbeBw phase cycling: from any phase `p` in `0..7`, the call number
`k` (counted from 0) of consecutive `execute()` calls runs with phase
`(p + k) % 8`; the phases of eight consecutive calls are `0..7`, each exactly
once; and after the eighth call the phase is `p` again. -/
theorem probe_bw_phase_cycling (c : Consts) (o : TcpBbrAdaptive) (p : Int)
    (hp : 0 ≤ p ∧ p ≤ 7) (hg : o.m_state_probe_bw.m_gain_cycle = p) :
    (∀ k : Nat, ((BbrAdaptiveProbeBWState.execute c)^[k] o).m_state_probe_bw.m_gain_cycle
        = (p + k) % 8) ∧
    ((List.range 8).map fun k =>
        ((BbrAdaptiveProbeBWState.execute c)^[k] o).m_state_probe_bw.m_gain_cycle).Perm
      [0, 1, 2, 3, 4, 5, 6, 7] ∧
    ((BbrAdaptiveProbeBWState.execute c)^[8] o).m_state_probe_bw.m_gain_cycle = p := by
  have hk : ∀ k : Nat,
      ((BbrAdaptiveProbeBWState.execute c)^[k] o).m_state_probe_bw.m_gain_cycle
        = (p + k) % 8 := by
    intro k
    rw [probe_bw_iterate_gain_cycle c o k (by rw [hg]; exact hp), hg]
  refine ⟨hk, ?_, ?_⟩
  · have : ((List.range 8).map fun k =>
        ((BbrAdaptiveProbeBWState.execute c)^[k] o).m_state_probe_bw.m_gain_cycle)
        = (List.range 8).map fun k : Nat => (p + k) % 8 :=
      List.map_congr_left fun k _ => hk k
    rw [this]
    obtain ⟨h0, h7⟩ := hp
    interval_cases p <;> decide
  · rw [hk 8]
    push_cast
    omega

/-- Witness of C4: starting phase 3. -/
theorem probe_bw_phase_cycling_witness :
    (∀ k : Nat, ((BbrAdaptiveProbeBWState.execute sampleConsts)^[k]
        { sampleFlow with m_state_probe_bw := { m_gain_cycle := 3 } }).m_state_probe_bw.m_gain_cycle
        = (3 + k) % 8) ∧
    ((List.range 8).map fun k =>
        ((BbrAdaptiveProbeBWState.execute sampleConsts)^[k]
          { sampleFlow with
            m_state_probe_bw := { m_gain_cycle := 3 } }).m_state_probe_bw.m_gain_cycle).Perm
      [0, 1, 2, 3, 4, 5, 6, 7] ∧
    ((BbrAdaptiveProbeBWState.execute sampleConsts)^[8]
        { sampleFlow with m_state_probe_bw := { m_gain_cycle := 3 } }).m_state_probe_bw.m_gain_cycle
      = 3 :=
  probe_bw_phase_cycling sampleConsts
    { sampleFlow with m_state_probe_bw := { m_gain_cycle := 3 } } 3 (by decide) rfl

/-- C5. ProbeBw enter never starts in phase 1: when the results of `rand()`
contain one whose residue modulo 8 is not 1, `enter()` returns, the phase is the
residue modulo 8 of the first such result, and it is one of 0, 2, 3, 4, 5, 6, 7. -/
theorem probe_bw_enter_never_phase_one (c : Consts) (t : Tick) (o : TcpBbrAdaptive)
    (h : ∃ r ∈ t.rand, r % 8 ≠ 1) :
    ∃ o' r, BbrAdaptiveProbeBWState.enter c t o = some o' ∧
      t.rand.find? (fun r => r % 8 != 1) = some r ∧
      o'.m_state_probe_bw.m_gain_cycle = ((r % 8 : Nat) : Int) ∧
      o'.m_state_probe_bw.m_gain_cycle ∈ [(0 : Int), 2, 3, 4, 5, 6, 7] := by
  obtain ⟨r, hf, hp, hne⟩ := pickGainCycle_of_mem t.rand h
  have he : ∃ o', BbrAdaptiveProbeBWState.enter c t o = some o' ∧
      o'.m_state_probe_bw.m_gain_cycle = ((r % 8 : Nat) : Int) := by
    simp [BbrAdaptiveProbeBWState.enter, hp]
  obtain ⟨o', he, hg⟩ := he
  refine ⟨o', r, he, hf, hg, ?_⟩
  rw [hg]
  have hlt : r % 8 < 8 := Nat.mod_lt r (by decide)
  generalize r % 8 = m at hlt hne
  interval_cases m <;> simp at hne ⊢

/-- Witness of C5: the results 9, 17, 4, 1 of `rand()` give phase 4. -/
theorem probe_bw_enter_never_phase_one_witness :
    ∃ o' r, BbrAdaptiveProbeBWState.enter sampleConsts sampleTick sampleFlow = some o' ∧
      sampleTick.rand.find? (fun r => r % 8 != 1) = some r ∧
      o'.m_state_probe_bw.m_gain_cycle = ((r % 8 : Nat) : Int) ∧
      o'.m_state_probe_bw.m_gain_cycle ∈ [(0 : Int), 2, 3, 4, 5, 6, 7] :=
  probe_bw_enter_never_phase_one sampleConsts sampleTick sampleFlow
    ⟨4, by decide, by decide⟩

/-- C6. ProbeRtt minimum duration: `enter()` sets the deadline to
`now + max(rtt, 0.2 s)`, counted in nanoseconds, for every `now` and every
`rtt`, a negative `rtt` included. -/
theorem probe_rtt_enter_deadline (c : Consts) (t : Tick) (o : TcpBbrAdaptive) :
    (BbrAdaptiveProbeRTTState.enter c t o).m_state_probe_rtt.m_probe_rtt_time
      = t.Now + max t.getRTT 200000000 := by
  simp only [BbrAdaptiveProbeRTTState.enter]
  split_ifs <;> omega

/-- Instances of C6 at `now = 1 s`: an RTT of 0.05 s gives `now + 0.2 s`, an RTT
of 0.5 s gives `now + 0.5 s`, and the sentinel `-1` gives `now + 0.2 s`. -/
theorem probe_rtt_enter_deadline_witness :
    (BbrAdaptiveProbeRTTState.enter sampleConsts sampleTick
        sampleFlow).m_state_probe_rtt.m_probe_rtt_time = 1200000000 ∧
    (BbrAdaptiveProbeRTTState.enter sampleConsts { sampleTick with getRTT := 500000000 }
        sampleFlow).m_state_probe_rtt.m_probe_rtt_time = 1500000000 ∧
    (BbrAdaptiveProbeRTTState.enter sampleConsts { sampleTick with getRTT := -1 }
        sampleFlow).m_state_probe_rtt.m_probe_rtt_time = 1200000000 :=
  ⟨(probe_rtt_enter_deadline sampleConsts sampleTick sampleFlow).trans (by decide),
   (probe_rtt_enter_deadline sampleConsts { sampleTick with getRTT := 500000000 }
      sampleFlow).trans (by decide),
   (probe_rtt_enter_deadline sampleConsts { sampleTick with getRTT := -1 }
      sampleFlow).trans (by decide)⟩

/-- C7. ProbeRtt exit: for a machine in `PROBE_RTT` with deadline `d`,
`execute()` at a time `now <= d` (`now = d` included) leaves the machine in
`PROBE_RTT`, and `execute()` at a time `now > d` changes it to `PROBE_BW`; in
that case the random source is assumed to yield a phase other than 1, so that
entering `PROBE_BW` returns. -/
theorem probe_rtt_exit (c : Consts) (t : Tick) (o : TcpBbrAdaptive) (d : Int)
    (hact : o.m_state = some .probe_rtt) (hd : o.m_state_probe_rtt.m_probe_rtt_time = d)
    (hr : d < t.Now → ∃ r ∈ t.rand, r % 8 ≠ 1) :
    ∃ o', BbrAdaptiveProbeRTTState.execute c t o = some o' ∧
      (t.Now ≤ d → getStateType o' = some .PROBE_RTT_STATE) ∧
      (t.Now = d → getStateType o' = some .PROBE_RTT_STATE) ∧
      (d < t.Now → getStateType o' = some .PROBE_BW_STATE) := by
  subst hd
  by_cases hlt : o.m_state_probe_rtt.m_probe_rtt_time < t.Now
  · obtain ⟨o', hc, hs, -⟩ := changeState_probe_bw_some c t
      { o with trace := o.trace ++ [Event.execute .probe_rtt], m_cwnd := c.MIN_CWND * 1500 }
      (hr hlt)
    refine ⟨o', ?_, fun h => absurd hlt (not_lt.mpr h), fun h => absurd hlt (by omega),
      fun _ => by simp [getStateType, hs, StatePtr.getType]⟩
    simp only [BbrAdaptiveProbeRTTState.execute, gt_iff_lt, if_pos hlt]
    exact hc
  · refine ⟨{ o with trace := o.trace ++ [Event.execute .probe_rtt],
                      m_cwnd := c.MIN_CWND * 1500 },
      by simp only [BbrAdaptiveProbeRTTState.execute, gt_iff_lt, if_neg hlt],
      fun _ => ?_, fun _ => ?_, fun h => absurd h hlt⟩ <;>
    simp [getStateType, hact, StatePtr.getType]

/-- Witness of C7: deadline 0.9 s, `execute()` at 1 s changes to `PROBE_BW`. -/
theorem probe_rtt_exit_witness :
    ∃ o', BbrAdaptiveProbeRTTState.execute sampleConsts sampleTick
        { sampleFlow with m_state := some .probe_rtt,
                          m_state_probe_rtt := { m_probe_rtt_time := 900000000 } } = some o' ∧
      (sampleTick.Now ≤ 900000000 → getStateType o' = some .PROBE_RTT_STATE) ∧
      (sampleTick.Now = 900000000 → getStateType o' = some .PROBE_RTT_STATE) ∧
      ((900000000 : Int) < sampleTick.Now → getStateType o' = some .PROBE_BW_STATE) :=
  probe_rtt_exit sampleConsts sampleTick
    { sampleFlow with m_state := some .probe_rtt,
                      m_state_probe_rtt := { m_probe_rtt_time := 900000000 } }
    900000000 rfl rfl (fun _ => ⟨4, by decide, by decide⟩)

/-- C8. Forced-probe override: for a machine in `PROBE_BW`, when
`checkProbeRTT()` answers true one `update()` returns with the machine in
`PROBE_RTT`; the events of the tick are the exit of `PROBE_BW`, the enter and
the execute of `PROBE_RTT`, the two culls and the schedule request if any, so
no `execute()` of `PROBE_BW` runs; the phase of `PROBE_BW` is unchanged; both
gains are `STEADY_FACTOR` (written by `enter()` of `PROBE_RTT`) and the window
is `MIN_CWND * 1500` (written by `execute()` of `PROBE_RTT`). -/
theorem forced_probe_override (c : Consts) (t : Tick) (o : TcpBbrAdaptive)
    (hact : o.m_state = some .probe_bw) (hf : t.checkProbeRTT = true) :
    ∃ o', update c t o = some o' ∧ getStateType o' = some .PROBE_RTT_STATE ∧
      o'.trace = o.trace ++
        [Event.exit .probe_bw, Event.enter .probe_rtt, Event.execute .probe_rtt,
          Event.cullRTTwindow, Event.cullBWwindow] ++
        (if t.getRTT_culled ≤ 0 then [] else [Event.Schedule t.getRTT_culled]) ∧
      Event.execute .probe_bw ∉ o'.trace.drop o.trace.length ∧
      o'.m_state_probe_bw.m_gain_cycle = o.m_state_probe_bw.m_gain_cycle ∧
      o'.m_pacing_gain = c.STEADY_FACTOR ∧ o'.m_cwnd_gain = c.STEADY_FACTOR ∧
      o'.m_cwnd = c.MIN_CWND * 1500 ∧
      o'.m_pacing_gain = (BbrAdaptiveProbeRTTState.enter c t o).m_pacing_gain ∧
      o'.m_cwnd_gain = (BbrAdaptiveProbeRTTState.enter c t o).m_cwnd_gain := by
  have hnot : ¬ t.Now > (if t.getRTT > 200000000 then t.getRTT else 200000000) + t.Now := by
    split_ifs <;> omega
  by_cases hneg : t.getRTT_culled ≤ 0
  · refine ⟨_, by
      simp only [update, hact, hf, if_true, changeState, BbrAdaptiveStateMachine.enter,
        BbrAdaptiveProbeRTTState.enter, BbrAdaptiveState.exit, Option.some_bind, execute,
        BbrAdaptiveProbeRTTState.execute, hnot, if_false, cullRTTwindow, cullBWwindow, hneg,
        not_true_eq_false, IsNegative, decide_True]
      rfl, ?_⟩
    simp [getStateType, StatePtr.getType, hneg, BbrAdaptiveProbeRTTState.enter]
  · refine ⟨_, by
      simp only [update, hact, hf, if_true, changeState, BbrAdaptiveStateMachine.enter,
        BbrAdaptiveProbeRTTState.enter, BbrAdaptiveState.exit, Option.some_bind, execute,
        BbrAdaptiveProbeRTTState.execute, hnot, if_false, cullRTTwindow, cullBWwindow, hneg,
        not_false_eq_true, Schedule, IsNegative, decide_False, Bool.false_eq_true, if_true]
      rfl, ?_⟩
    simp [getStateType, StatePtr.getType, hneg, BbrAdaptiveProbeRTTState.enter]

/-- Witness of C8: a machine in `PROBE_BW` at phase 5 and a forced probe. -/
theorem forced_probe_override_witness :
    ∃ o', update sampleConsts forcedTick
        { sampleFlow with m_state := some .probe_bw,
                          m_state_probe_bw := { m_gain_cycle := 5 } } = some o' ∧
      getStateType o' = some .PROBE_RTT_STATE ∧
      o'.m_state_probe_bw.m_gain_cycle = 5 ∧ o'.m_cwnd = 6000 := by
  obtain ⟨o', hu, hs, -, -, hg, -, -, hw, -, -⟩ :=
    forced_probe_override sampleConsts forcedTick
      { sampleFlow with m_state := some .probe_bw,
                        m_state_probe_bw := { m_gain_cycle := 5 } } rfl rfl
  exact ⟨o', hu, hs, hg, by rw [hw]; norm_num [sampleConsts]⟩

/-- C9. No reschedule without RTT: for a machine with active state `p`, when
`getRTT()` is negative at the end of the tick, `update()` returns and the
events of the tick are: hook events, one `execute()` (of `PROBE_RTT` after a
forced probe, of `p` otherwise), hook events, one RTT-window cull, one
bandwidth-window cull, and no schedule request. The random source is assumed to
yield a phase other than 1, so that a change to `PROBE_BW` returns. -/
theorem no_reschedule_without_rtt (c : Consts) (t : Tick) (p : StatePtr) (o : TcpBbrAdaptive)
    (hact : o.m_state = some p) (hneg : t.getRTT_culled < 0)
    (hr : ∃ r ∈ t.rand, r % 8 ≠ 1) :
    ∃ o' hooks1 hooks2, update c t o = some o' ∧
      o'.trace = o.trace ++ hooks1 ++
        [Event.execute (if t.checkProbeRTT then .probe_rtt else p)] ++ hooks2 ++
        [Event.cullRTTwindow, Event.cullBWwindow] ∧
      (∀ e ∈ hooks1 ++ hooks2, e.isHook = true) ∧
      (o'.trace.drop o.trace.length).count Event.cullRTTwindow = 1 ∧
      (o'.trace.drop o.trace.length).count Event.cullBWwindow = 1 ∧
      (∀ d, Event.Schedule d ∉ o'.trace.drop o.trace.length) := by
  obtain ⟨o2, hooks1, hooks2, hu, ht, hh1, hh2⟩ := update_steps c t p o hact hr
  rw [if_pos (le_of_lt hneg)] at hu
  have htr : (cullBWwindow (cullRTTwindow o2)).trace = o.trace ++ (hooks1 ++
      [Event.execute (if t.checkProbeRTT then .probe_rtt else p)] ++ hooks2 ++
      [Event.cullRTTwindow, Event.cullBWwindow]) := by
    simp [cullBWwindow, cullRTTwindow, ht]
  have hn1 : ∀ e, e.isHook = false → e ∉ hooks1 := fun e he hm => by
    rw [hh1 e hm] at he; exact Bool.noConfusion he
  have hn2 : ∀ e, e.isHook = false → e ∉ hooks2 := fun e he hm => by
    rw [hh2 e hm] at he; exact Bool.noConfusion he
  refine ⟨_, hooks1, hooks2, hu, by rw [htr]; simp, ?_, ?_, ?_, ?_⟩
  · intro e he
    rcases List.mem_append.mp he with h | h
    · exact hh1 e h
    · exact hh2 e h
  · rw [htr, List.drop_left]
    simp [List.count_append, List.count_eq_zero_of_not_mem (hn1 Event.cullRTTwindow rfl),
      List.count_eq_zero_of_not_mem (hn2 Event.cullRTTwindow rfl), List.count_cons]
  · rw [htr, List.drop_left]
    simp [List.count_append, List.count_eq_zero_of_not_mem (hn1 Event.cullBWwindow rfl),
      List.count_eq_zero_of_not_mem (hn2 Event.cullBWwindow rfl), List.count_cons]
  · intro d
    rw [htr, List.drop_left]
    simp [hn1 (Event.Schedule d) rfl, hn2 (Event.Schedule d) rfl]

/-- Witness of C9: a machine in `STARTUP` and no RTT sample. -/
theorem no_reschedule_without_rtt_witness :
    ∃ o' hooks1 hooks2, update sampleConsts noRttTick
        { sampleFlow with m_state := some .startup } = some o' ∧
      o'.trace = sampleFlow.trace ++ hooks1 ++ [Event.execute .startup] ++ hooks2 ++
        [Event.cullRTTwindow, Event.cullBWwindow] ∧
      (∀ e ∈ hooks1 ++ hooks2, e.isHook = true) := by
  obtain ⟨o', hooks1, hooks2, hu, ht, hh, -⟩ :=
    no_reschedule_without_rtt sampleConsts noRttTick .startup
      { sampleFlow with m_state := some .startup } rfl (by decide) ⟨4, by decide, by decide⟩
  exact ⟨o', hooks1, hooks2, hu, ht, hh⟩

/-- C10 as stated fails at `r = 0`: `Time::IsNegative()` holds of the zero
time, so `update()` of a machine in `PROBE_BW` with a zero RTT estimate runs
`execute()` and the two culls and issues no schedule request. -/
theorem reschedule_at_zero_rtt_counterexample :
    zeroRttTick.getRTT_culled = 0 ∧
    ∃ o', update sampleConsts zeroRttTick { sampleFlow with m_state := some .probe_bw }
        = some o' ∧
      o'.trace = [Event.execute .probe_bw, Event.cullRTTwindow, Event.cullBWwindow] ∧
      Event.Schedule 0 ∉ o'.trace := by
  refine ⟨rfl, _, rfl, ?_, ?_⟩
  · simp [cullBWwindow, cullRTTwindow, BbrAdaptiveProbeBWState.execute, sampleFlow]
  · simp [cullBWwindow, cullRTTwindow, BbrAdaptiveProbeBWState.execute, sampleFlow]

/-- C10 (amended). Reschedule after one RTT: for a machine with active state
`p` and a strictly positive `getRTT()` value `r` at the end of the tick,
`update()` returns and the events of the tick are: hook events, one
`execute()`, hook events, the RTT-window cull, the bandwidth-window cull, and
last one schedule request with delay `r`; there is no other schedule request.
The random source is assumed to yield a phase other than 1, so that a change to
`PROBE_BW` returns. -/
theorem reschedule_after_one_rtt (c : Consts) (t : Tick) (p : StatePtr) (o : TcpBbrAdaptive)
    (r : Int) (hact : o.m_state = some p) (hrtt : t.getRTT_culled = r) (hpos : 0 < r)
    (hr : ∃ r ∈ t.rand, r % 8 ≠ 1) :
    ∃ o' hooks1 hooks2, update c t o = some o' ∧
      o'.trace = o.trace ++ hooks1 ++
        [Event.execute (if t.checkProbeRTT then .probe_rtt else p)] ++ hooks2 ++
        [Event.cullRTTwindow, Event.cullBWwindow, Event.Schedule r] ∧
      (∀ e ∈ hooks1 ++ hooks2, e.isHook = true) ∧
      (o'.trace.drop o.trace.length).filter (fun e => !e.isHook) =
        [Event.execute (if t.checkProbeRTT then .probe_rtt else p),
          Event.cullRTTwindow, Event.cullBWwindow, Event.Schedule r] := by
  obtain ⟨o2, hooks1, hooks2, hu, ht, hh1, hh2⟩ := update_steps c t p o hact hr
  rw [if_neg (by rw [hrtt]; exact not_le.mpr hpos), hrtt] at hu
  have htr : (Schedule r (cullBWwindow (cullRTTwindow o2))).trace = o.trace ++ (hooks1 ++
      [Event.execute (if t.checkProbeRTT then .probe_rtt else p)] ++ hooks2 ++
      [Event.cullRTTwindow, Event.cullBWwindow, Event.Schedule r]) := by
    simp [Schedule, cullBWwindow, cullRTTwindow, ht]
  refine ⟨_, hooks1, hooks2, hu, by rw [htr]; simp, ?_, ?_⟩
  · intro e he
    rcases List.mem_append.mp he with h | h
    · exact hh1 e h
    · exact hh2 e h
  · rw [htr, List.drop_left]
    simp only [List.filter_append, filter_not_isHook hooks1 hh1, filter_not_isHook hooks2 hh2]
    rfl

/-- Witness of C10 (amended): a machine in `DRAIN` and an RTT estimate of 50 ms. -/
theorem reschedule_after_one_rtt_witness :
    ∃ o' hooks1 hooks2, update sampleConsts sampleTick
        { sampleFlow with m_state := some .drain } = some o' ∧
      o'.trace = sampleFlow.trace ++ hooks1 ++ [Event.execute .drain] ++ hooks2 ++
        [Event.cullRTTwindow, Event.cullBWwindow, Event.Schedule 50000000] ∧
      (∀ e ∈ hooks1 ++ hooks2, e.isHook = true) := by
  obtain ⟨o', hooks1, hooks2, hu, ht, hh, -⟩ :=
    reschedule_after_one_rtt sampleConsts sampleTick .drain
      { sampleFlow with m_state := some .drain } 50000000 rfl rfl (by decide)
      ⟨4, by decide, by decide⟩
  exact ⟨o', hooks1, hooks2, hu, ht, hh⟩

/-- C11. `update()` with no active state is a no-op: whatever the collaborators
would return (the forced-probe answer included), `update()` returns the flow
unchanged, all fields and the record of issued events alike, so that no hook, no
`execute()`, no cull and no schedule request happens. -/
theorem update_no_active_state (c : Consts) (t : Tick) (o : TcpBbrAdaptive)
    (h : o.m_state = none) :
    update c t o = some o ∧
      ∀ o', update c t o = some o' → o'.trace = o.trace ∧ o'.m_state = none := by
  have hu : update c t o = some o := by simp only [update, h]
  refine ⟨hu, fun o' ho' => ?_⟩
  rw [hu] at ho'
  cases ho'
  exact ⟨rfl, h⟩

/-- Witness of C11: a freshly constructed machine on a tick with a forced probe. -/
theorem update_no_active_state_witness :
    update sampleConsts forcedTick sampleFlow = some sampleFlow :=
  (update_no_active_state sampleConsts forcedTick sampleFlow rfl).1

/-- C12. Transition ordering: `changeState(next)` returns with `next` active,
and the hooks it runs are the exit of the previously active state followed by
the enter of `next` when a state was active, and the enter of `next` alone when
none was. For `next = PROBE_BW` the random source is assumed to yield a phase
other than 1, so that its `enter()` returns. -/
theorem changeState_hook_order (c : Consts) (t : Tick) (next : StatePtr) (o : TcpBbrAdaptive)
    (hr : next = .probe_bw → ∃ r ∈ t.rand, r % 8 ≠ 1) :
    ∃ o', changeState c t next o = some o' ∧
      o'.trace = o.trace ++ (match o.m_state with
        | some old => [Event.exit old, Event.enter next]
        | none => [Event.enter next]) ∧
      o'.m_state = some next := by
  cases next with
  | startup =>
    unfold changeState BbrAdaptiveStateMachine.enter
    cases o.m_state <;> simp [BbrAdaptiveStartupState.enter, BbrAdaptiveState.exit]
  | drain =>
    unfold changeState BbrAdaptiveStateMachine.enter
    cases o.m_state <;> simp [BbrAdaptiveDrainState.enter, BbrAdaptiveState.exit]
  | probe_bw =>
    obtain ⟨o', hc, hs, -, -, -, -, hooks, ht, hh⟩ := changeState_probe_bw_some c t o (hr rfl)
    refine ⟨o', hc, ?_, hs⟩
    rw [ht, hh]
    cases o.m_state <;> simp
  | probe_rtt =>
    unfold changeState BbrAdaptiveStateMachine.enter
    cases o.m_state <;> simp [BbrAdaptiveProbeRTTState.enter, BbrAdaptiveState.exit]

/-- Witness of C12: from `DRAIN` to `PROBE_BW`. -/
theorem changeState_hook_order_witness :
    ∃ o', changeState sampleConsts sampleTick .probe_bw
        { sampleFlow with m_state := some .drain } = some o' ∧
      o'.trace = [Event.exit .drain, Event.enter .probe_bw] ∧
      o'.m_state = some .probe_bw :=
  changeState_hook_order sampleConsts sampleTick .probe_bw
    { sampleFlow with m_state := some .drain } (fun _ => ⟨4, by decide, by decide⟩)

/-- C13. Exactly-one-active-state invariant: after a non-empty sequence of
`changeState` calls, `getStateType()` returns the kind of the last target:
`STARTUP_STATE` when the last target is the `STARTUP` state, `DRAIN_STATE` for
the `DRAIN` state, `PROBE_BW_STATE` for the `PROBE_BW` state and
`PROBE_RTT_STATE` for the `PROBE_RTT` state; so it returns one of these four
kinds and never `UNDEFINED_STATE`. For the calls whose target is `PROBE_BW` the
random source is assumed to yield a phase other than 1, so that the call
returns. -/
theorem getStateType_after_changeStates (c : Consts) (l : List (Tick × StatePtr))
    (o : TcpBbrAdaptive) (hl : l ≠ [])
    (hr : ∀ x ∈ l, x.2 = .probe_bw → ∃ r ∈ x.1.rand, r % 8 ≠ 1) :
    ∃ o', changeStates c l o = some o' ∧
      getStateType o' = some (l.getLast hl).2.getType ∧
      ((l.getLast hl).2 = .startup → getStateType o' = some .STARTUP_STATE) ∧
      ((l.getLast hl).2 = .drain → getStateType o' = some .DRAIN_STATE) ∧
      ((l.getLast hl).2 = .probe_bw → getStateType o' = some .PROBE_BW_STATE) ∧
      ((l.getLast hl).2 = .probe_rtt → getStateType o' = some .PROBE_RTT_STATE) ∧
      getStateType o' ≠ some .UNDEFINED_STATE ∧
      getStateType o' ∈
        [some BbrAdaptive_state.STARTUP_STATE, some .DRAIN_STATE, some .PROBE_BW_STATE,
          some .PROBE_RTT_STATE] := by
  have key : ∀ (l : List (Tick × StatePtr)) (o : TcpBbrAdaptive) (hl : l ≠ []),
      (∀ x ∈ l, x.2 = .probe_bw → ∃ r ∈ x.1.rand, r % 8 ≠ 1) →
      ∃ o', changeStates c l o = some o' ∧ o'.m_state = some (l.getLast hl).2 := by
    intro l
    induction l with
    | nil => intro _ hl; exact absurd rfl hl
    | cons x rest ih =>
      intro o _ hr
      obtain ⟨o1, hc, hs⟩ := changeState_some c x.1 x.2 o (hr x (List.mem_cons_self _ _))
      by_cases hrest : rest = []
      · subst hrest
        exact ⟨o1, by simp [changeStates, hc], by simpa using hs⟩
      · obtain ⟨o', hcs, hs'⟩ :=
          ih o1 hrest (fun y hy => hr y (List.mem_cons_of_mem _ hy))
        refine ⟨o', by simp [changeStates, hc, hcs], ?_⟩
        rw [hs', List.getLast_cons hrest]
  obtain ⟨o', hcs, hs⟩ := key l o hl hr
  refine ⟨o', hcs, by simp [getStateType, hs], ?_, ?_, ?_, ?_, ?_, ?_⟩
  · intro h; rw [h] at hs; simp [getStateType, hs, StatePtr.getType]
  · intro h; rw [h] at hs; simp [getStateType, hs, StatePtr.getType]
  · intro h; rw [h] at hs; simp [getStateType, hs, StatePtr.getType]
  · intro h; rw [h] at hs; simp [getStateType, hs, StatePtr.getType]
  · simp only [getStateType, hs, Option.map_some']
    cases (l.getLast hl).2 <;> simp [StatePtr.getType]
  · simp only [getStateType, hs, Option.map_some']
    cases (l.getLast hl).2 <;> simp [StatePtr.getType]

/-- Witness of C13: the calls `changeState(STARTUP)`, `changeState(PROBE_BW)`,
`changeState(DRAIN)` on a fresh machine end with `getStateType()` equal to
`DRAIN_STATE`. -/
theorem getStateType_after_changeStates_witness :
    ∃ o', changeStates sampleConsts
        [(sampleTick, .startup), (sampleTick, .probe_bw), (sampleTick, .drain)]
        sampleFlow = some o' ∧
      getStateType o' = some .DRAIN_STATE := by
  obtain ⟨o', hc, -, -, hs, -⟩ := getStateType_after_changeStates sampleConsts
    [(sampleTick, .startup), (sampleTick, .probe_bw), (sampleTick, .drain)]
    sampleFlow (by simp) (fun x hx _ => by
      have h1 : x.1 = sampleTick := by
        simp only [List.mem_cons, List.mem_singleton, List.not_mem_nil, or_false] at hx
        rcases hx with h | h | h <;> rw [h]
      rw [h1]; exact ⟨4, by decide, by decide⟩)
  exact ⟨o', hc, hs rfl⟩

/-- C14. Startup with no bandwidth sample: when `getBW()` is negative,
`execute()` returns and changes no field: best bandwidth, stall count, pacing
gain, congestion-window gain, congestion window, the other states and the
active state are as before; only the call itself is recorded. -/
theorem startup_no_bandwidth_sample (c : Consts) (t : Tick) (o : TcpBbrAdaptive)
    (h : t.getBW < 0) :
    ∃ o', BbrAdaptiveStartupState.execute c t o = some o' ∧
      o' = { o with trace := o.trace ++ [Event.execute .startup] } ∧
      o'.m_state_startup.m_full_bw = o.m_state_startup.m_full_bw ∧
      o'.m_state_startup.m_full_bw_count = o.m_state_startup.m_full_bw_count ∧
      o'.m_pacing_gain = o.m_pacing_gain ∧ o'.m_cwnd_gain = o.m_cwnd_gain ∧
      o'.m_state = o.m_state := by
  refine ⟨{ o with trace := o.trace ++ [Event.execute .startup] }, ?_, rfl, rfl, rfl, rfl,
    rfl, rfl⟩
  simp only [BbrAdaptiveStartupState.execute, if_pos h]

/-- Witness of C14: a tick on which `getBW()` is `-1`. -/
theorem startup_no_bandwidth_sample_witness :
    ∃ o', BbrAdaptiveStartupState.execute sampleConsts { sampleTick with getBW := -1 }
        { sampleFlow with m_state := some .startup } = some o' ∧
      o' = { sampleFlow with m_state := some .startup,
                             trace := [Event.execute .startup] } := by
  obtain ⟨o', he, ho, -⟩ := startup_no_bandwidth_sample sampleConsts
    { sampleTick with getBW := -1 } { sampleFlow with m_state := some .startup }
    (by norm_num)
  exact ⟨o', he, ho⟩

/-- C16. Startup enter: `enter()` sets the pacing gain and the congestion-window
gain to `STARTUP_GAIN` and leaves the best bandwidth and the stall count as they
were, on a first entry and on a re-entry through `changeState` alike. -/
theorem startup_enter_gains (c : Consts) (t : Tick) (o : TcpBbrAdaptive) :
    (BbrAdaptiveStartupState.enter c o).m_pacing_gain = c.STARTUP_GAIN ∧
    (BbrAdaptiveStartupState.enter c o).m_cwnd_gain = c.STARTUP_GAIN ∧
    (BbrAdaptiveStartupState.enter c o).m_state_startup.m_full_bw
      = o.m_state_startup.m_full_bw ∧
    (BbrAdaptiveStartupState.enter c o).m_state_startup.m_full_bw_count
      = o.m_state_startup.m_full_bw_count ∧
    ∃ o', changeState c t .startup o = some o' ∧
      o'.m_pacing_gain = c.STARTUP_GAIN ∧ o'.m_cwnd_gain = c.STARTUP_GAIN ∧
      o'.m_state_startup = o.m_state_startup := by
  refine ⟨rfl, rfl, rfl, rfl, ?_⟩
  unfold changeState BbrAdaptiveStateMachine.enter
  cases o.m_state <;> simp [BbrAdaptiveStartupState.enter, BbrAdaptiveState.exit]

/-- C17. Drain enter gains: with `STARTUP_GAIN` non-zero, `enter()` sets the
pacing gain to `1 / STARTUP_GAIN`, so that the pacing gain of `STARTUP` times
the pacing gain of `DRAIN` is 1; the congestion-window gain is
`1 / STARTUP_GAIN` without pacing and `STARTUP_GAIN` with pacing. -/
theorem drain_enter_gains (c : Consts) (t : Tick) (o : TcpBbrAdaptive)
    (hne : c.STARTUP_GAIN ≠ 0) :
    (BbrAdaptiveDrainState.enter c t o).m_pacing_gain = 1 / c.STARTUP_GAIN ∧
    (BbrAdaptiveStartupState.enter c o).m_pacing_gain
      * (BbrAdaptiveDrainState.enter c t o).m_pacing_gain = 1 ∧
    (c.NO_PACING = true →
      (BbrAdaptiveDrainState.enter c t o).m_cwnd_gain = 1 / c.STARTUP_GAIN) ∧
    (c.NO_PACING = false →
      (BbrAdaptiveDrainState.enter c t o).m_cwnd_gain = c.STARTUP_GAIN) := by
  refine ⟨rfl, ?_, ?_, ?_⟩
  · simp only [BbrAdaptiveStartupState.enter, BbrAdaptiveDrainState.enter]
    exact mul_one_div_cancel hne
  · intro h; simp [BbrAdaptiveDrainState.enter, h]
  · intro h; simp [BbrAdaptiveDrainState.enter, h]

/-- Witness of C17: `STARTUP_GAIN = 2.89` with pacing enabled. -/
theorem drain_enter_gains_witness :
    (BbrAdaptiveDrainState.enter sampleConsts sampleTick sampleFlow).m_pacing_gain
      = 1 / sampleConsts.STARTUP_GAIN ∧
    (BbrAdaptiveStartupState.enter sampleConsts sampleFlow).m_pacing_gain
      * (BbrAdaptiveDrainState.enter sampleConsts sampleTick sampleFlow).m_pacing_gain = 1 ∧
    (BbrAdaptiveDrainState.enter sampleConsts sampleTick sampleFlow).m_cwnd_gain
      = sampleConsts.STARTUP_GAIN :=
  have h := drain_enter_gains sampleConsts sampleTick sampleFlow (by norm_num [sampleConsts])
  ⟨h.1, h.2.1, h.2.2.2 rfl⟩

/-- C19. ProbeBw gain schedule: with the phase `p` in `0..7`, `execute()` sets
the pacing gain to `STEADY_FACTOR + PROBE_FACTOR` for `p = 0`, to
`STEADY_FACTOR - DRAIN_FACTOR` for `p = 1` with pacing, to
`STEADY_FACTOR - DRAIN_FACTOR / 8` for `p = 1` without pacing, and to
`STEADY_FACTOR` for `p` in `2..7`. The gains written by eight consecutive calls
are, up to order, the high value once, the low value once and `STEADY_FACTOR`
six times. -/
theorem probe_bw_gain_schedule (c : Consts) (o : TcpBbrAdaptive) (p : Int)
    (hp : 0 ≤ p ∧ p ≤ 7) (hg : o.m_state_probe_bw.m_gain_cycle = p) :
    (p = 0 → (BbrAdaptiveProbeBWState.execute c o).m_pacing_gain
        = c.STEADY_FACTOR + c.PROBE_FACTOR) ∧
    (p = 1 → c.NO_PACING = false → (BbrAdaptiveProbeBWState.execute c o).m_pacing_gain
        = c.STEADY_FACTOR - c.DRAIN_FACTOR) ∧
    (p = 1 → c.NO_PACING = true → (BbrAdaptiveProbeBWState.execute c o).m_pacing_gain
        = c.STEADY_FACTOR - c.DRAIN_FACTOR / 8) ∧
    (2 ≤ p → (BbrAdaptiveProbeBWState.execute c o).m_pacing_gain = c.STEADY_FACTOR) ∧
    ((List.range 8).map fun k =>
        ((BbrAdaptiveProbeBWState.execute c)^[k + 1] o).m_pacing_gain).Perm
      [c.STEADY_FACTOR + c.PROBE_FACTOR,
        if c.NO_PACING then c.STEADY_FACTOR - c.DRAIN_FACTOR / 8
        else c.STEADY_FACTOR - c.DRAIN_FACTOR,
        c.STEADY_FACTOR, c.STEADY_FACTOR, c.STEADY_FACTOR, c.STEADY_FACTOR,
        c.STEADY_FACTOR, c.STEADY_FACTOR] ∧
    (c.STEADY_FACTOR + c.PROBE_FACTOR ≠ c.STEADY_FACTOR →
      (if c.NO_PACING then c.STEADY_FACTOR - c.DRAIN_FACTOR / 8
        else c.STEADY_FACTOR - c.DRAIN_FACTOR) ≠ c.STEADY_FACTOR →
      c.STEADY_FACTOR + c.PROBE_FACTOR ≠
        (if c.NO_PACING then c.STEADY_FACTOR - c.DRAIN_FACTOR / 8
          else c.STEADY_FACTOR - c.DRAIN_FACTOR) →
      ((List.range 8).map fun k =>
          ((BbrAdaptiveProbeBWState.execute c)^[k + 1] o).m_pacing_gain).count
        (c.STEADY_FACTOR + c.PROBE_FACTOR) = 1 ∧
      ((List.range 8).map fun k =>
          ((BbrAdaptiveProbeBWState.execute c)^[k + 1] o).m_pacing_gain).count
        (if c.NO_PACING then c.STEADY_FACTOR - c.DRAIN_FACTOR / 8
          else c.STEADY_FACTOR - c.DRAIN_FACTOR) = 1 ∧
      ((List.range 8).map fun k =>
          ((BbrAdaptiveProbeBWState.execute c)^[k + 1] o).m_pacing_gain).count
        c.STEADY_FACTOR = 6) := by
  have hex : ∀ o : TcpBbrAdaptive, (BbrAdaptiveProbeBWState.execute c o).m_pacing_gain =
      if o.m_state_probe_bw.m_gain_cycle = 0 then c.STEADY_FACTOR + c.PROBE_FACTOR
      else if o.m_state_probe_bw.m_gain_cycle = 1 then
        (if c.NO_PACING then c.STEADY_FACTOR - c.DRAIN_FACTOR / 8
         else c.STEADY_FACTOR - c.DRAIN_FACTOR)
      else c.STEADY_FACTOR := fun _ => rfl
  have hperm : ((List.range 8).map fun k =>
        ((BbrAdaptiveProbeBWState.execute c)^[k + 1] o).m_pacing_gain).Perm
      [c.STEADY_FACTOR + c.PROBE_FACTOR,
        if c.NO_PACING then c.STEADY_FACTOR - c.DRAIN_FACTOR / 8
        else c.STEADY_FACTOR - c.DRAIN_FACTOR,
        c.STEADY_FACTOR, c.STEADY_FACTOR, c.STEADY_FACTOR, c.STEADY_FACTOR,
        c.STEADY_FACTOR, c.STEADY_FACTOR] := by
    have hk : ∀ k : Nat, ((BbrAdaptiveProbeBWState.execute c)^[k + 1] o).m_pacing_gain =
        if (p + k) % 8 = 0 then c.STEADY_FACTOR + c.PROBE_FACTOR
        else if (p + k) % 8 = 1 then
          (if c.NO_PACING then c.STEADY_FACTOR - c.DRAIN_FACTOR / 8
           else c.STEADY_FACTOR - c.DRAIN_FACTOR)
        else c.STEADY_FACTOR := by
      intro k
      rw [Function.iterate_succ_apply', hex,
        probe_bw_iterate_gain_cycle c o k (by rw [hg]; exact hp), hg]
    have hl : ((List.range 8).map fun k =>
        ((BbrAdaptiveProbeBWState.execute c)^[k + 1] o).m_pacing_gain)
        = (List.range 8).map fun k : Nat =>
          if (p + k) % 8 = 0 then c.STEADY_FACTOR + c.PROBE_FACTOR
          else if (p + k) % 8 = 1 then
            (if c.NO_PACING then c.STEADY_FACTOR - c.DRAIN_FACTOR / 8
             else c.STEADY_FACTOR - c.DRAIN_FACTOR)
          else c.STEADY_FACTOR :=
      List.map_congr_left fun k _ => hk k
    rw [hl]
    have hrange : List.range 8 = [0, 1, 2, 3, 4, 5, 6, 7] := rfl
    rw [hrange]
    obtain ⟨h0, h7⟩ := hp
    generalize c.STEADY_FACTOR + c.PROBE_FACTOR = hi
    generalize (if c.NO_PACING then c.STEADY_FACTOR - c.DRAIN_FACTOR / 8
      else c.STEADY_FACTOR - c.DRAIN_FACTOR) = lo
    generalize c.STEADY_FACTOR = st
    interval_cases p
    · exact List.rotate_perm [hi, lo, st, st, st, st, st, st] 0
    · exact List.rotate_perm [hi, lo, st, st, st, st, st, st] 1
    · exact List.rotate_perm [hi, lo, st, st, st, st, st, st] 2
    · exact List.rotate_perm [hi, lo, st, st, st, st, st, st] 3
    · exact List.rotate_perm [hi, lo, st, st, st, st, st, st] 4
    · exact List.rotate_perm [hi, lo, st, st, st, st, st, st] 5
    · exact List.rotate_perm [hi, lo, st, st, st, st, st, st] 6
    · exact List.rotate_perm [hi, lo, st, st, st, st, st, st] 7
  refine ⟨?_, ?_, ?_, ?_, hperm, ?_⟩
  · intro h; rw [hex, hg, h]; simp
  · intro h h'; rw [hex, hg, h, h']; simp
  · intro h h'; rw [hex, hg, h, h']; simp
  · intro h
    rw [hex, hg, if_neg (by omega), if_neg (by omega)]
  · intro h1 h2 h3
    rw [hperm.count_eq, hperm.count_eq, hperm.count_eq]
    generalize c.STEADY_FACTOR + c.PROBE_FACTOR = hi at h1 h3 ⊢
    generalize (if c.NO_PACING then c.STEADY_FACTOR - c.DRAIN_FACTOR / 8
      else c.STEADY_FACTOR - c.DRAIN_FACTOR) = lo at h2 h3 ⊢
    generalize c.STEADY_FACTOR = st at h1 h2 ⊢
    simp [List.count_cons, h1, h2, h3, Ne.symm h1, Ne.symm h2, Ne.symm h3]

/-- Witness of C19: starting phase 6 with the design values, pacing enabled. -/
theorem probe_bw_gain_schedule_witness :
    (BbrAdaptiveProbeBWState.execute sampleConsts
        { sampleFlow with m_state_probe_bw := { m_gain_cycle := 6 } }).m_pacing_gain
      = sampleConsts.STEADY_FACTOR ∧
    ((List.range 8).map fun k =>
        ((BbrAdaptiveProbeBWState.execute sampleConsts)^[k + 1]
          { sampleFlow with m_state_probe_bw := { m_gain_cycle := 6 } }).m_pacing_gain).Perm
      [sampleConsts.STEADY_FACTOR + sampleConsts.PROBE_FACTOR,
        if sampleConsts.NO_PACING then sampleConsts.STEADY_FACTOR - sampleConsts.DRAIN_FACTOR / 8
        else sampleConsts.STEADY_FACTOR - sampleConsts.DRAIN_FACTOR,
        sampleConsts.STEADY_FACTOR, sampleConsts.STEADY_FACTOR, sampleConsts.STEADY_FACTOR,
        sampleConsts.STEADY_FACTOR, sampleConsts.STEADY_FACTOR, sampleConsts.STEADY_FACTOR] :=
  have h := probe_bw_gain_schedule sampleConsts
    { sampleFlow with m_state_probe_bw := { m_gain_cycle := 6 } } 6 (by decide) rfl
  ⟨h.2.2.2.1 (by decide), h.2.2.2.2.1⟩

/-- C20. ProbeBw congestion-window gain rule: after `enter()` and after every
`execute()`, in any phase, the congestion-window gain equals the pacing gain
just written when pacing is disabled and equals `2 * STEADY_FACTOR` when pacing
is enabled. The random source is assumed to yield a phase other than 1, so that
`enter()` returns. -/
theorem probe_bw_cwnd_gain_rule (c : Consts) (t : Tick) (o : TcpBbrAdaptive)
    (hr : ∃ r ∈ t.rand, r % 8 ≠ 1) :
    (∃ o', BbrAdaptiveProbeBWState.enter c t o = some o' ∧
      (c.NO_PACING = true → o'.m_cwnd_gain = o'.m_pacing_gain) ∧
      (c.NO_PACING = false → o'.m_cwnd_gain = 2 * c.STEADY_FACTOR)) ∧
    (∀ o2 : TcpBbrAdaptive,
      (c.NO_PACING = true → (BbrAdaptiveProbeBWState.execute c o2).m_cwnd_gain
        = (BbrAdaptiveProbeBWState.execute c o2).m_pacing_gain) ∧
      (c.NO_PACING = false → (BbrAdaptiveProbeBWState.execute c o2).m_cwnd_gain
        = 2 * c.STEADY_FACTOR)) ∧
    (∀ (o2 : TcpBbrAdaptive) (k : Nat),
      (c.NO_PACING = true → ((BbrAdaptiveProbeBWState.execute c)^[k + 1] o2).m_cwnd_gain
        = ((BbrAdaptiveProbeBWState.execute c)^[k + 1] o2).m_pacing_gain) ∧
      (c.NO_PACING = false → ((BbrAdaptiveProbeBWState.execute c)^[k + 1] o2).m_cwnd_gain
        = 2 * c.STEADY_FACTOR)) := by
  have hex : ∀ o2 : TcpBbrAdaptive,
      (c.NO_PACING = true → (BbrAdaptiveProbeBWState.execute c o2).m_cwnd_gain
        = (BbrAdaptiveProbeBWState.execute c o2).m_pacing_gain) ∧
      (c.NO_PACING = false → (BbrAdaptiveProbeBWState.execute c o2).m_cwnd_gain
        = 2 * c.STEADY_FACTOR) := by
    intro o2
    constructor <;> intro h <;> simp [BbrAdaptiveProbeBWState.execute, h]
  refine ⟨?_, hex, ?_⟩
  · obtain ⟨r, -, hp, -⟩ := pickGainCycle_of_mem t.rand hr
    refine ⟨_, by simp only [BbrAdaptiveProbeBWState.enter, hp]; rfl, ?_, ?_⟩
    · intro h; simp [h]
    · intro h; simp [h, mul_comm]
  · intro o2 k
    rw [Function.iterate_succ_apply']
    exact hex _

/-- Witness of C20: the results 9, 17, 4, 1 of `rand()`, pacing enabled. -/
theorem probe_bw_cwnd_gain_rule_witness :
    ∃ o', BbrAdaptiveProbeBWState.enter sampleConsts sampleTick sampleFlow = some o' ∧
      o'.m_cwnd_gain = 2 * sampleConsts.STEADY_FACTOR :=
  have h := probe_bw_cwnd_gain_rule sampleConsts sampleTick sampleFlow
    ⟨4, by decide, by decide⟩
  h.1.imp fun _ ho => ⟨ho.1, ho.2.2 rfl⟩

/-- C21. ProbeRtt gains and window: `enter()` sets the pacing gain and the
congestion-window gain to `STEADY_FACTOR` and leaves the congestion window as it
was; `execute()` sets the congestion window to `MIN_CWND * 1500`, whatever it
was before and whether or not the call also changes to `PROBE_BW`. For a call
after the deadline the random source is assumed to yield a phase other than 1,
so that entering `PROBE_BW` returns. -/
theorem probe_rtt_gains_and_window (c : Consts) (t : Tick) (o : TcpBbrAdaptive)
    (hr : o.m_state_probe_rtt.m_probe_rtt_time < t.Now → ∃ r ∈ t.rand, r % 8 ≠ 1) :
    (BbrAdaptiveProbeRTTState.enter c t o).m_pacing_gain = c.STEADY_FACTOR ∧
    (BbrAdaptiveProbeRTTState.enter c t o).m_cwnd_gain = c.STEADY_FACTOR ∧
    (BbrAdaptiveProbeRTTState.enter c t o).m_cwnd = o.m_cwnd ∧
    ∃ o', BbrAdaptiveProbeRTTState.execute c t o = some o' ∧
      o'.m_cwnd = c.MIN_CWND * 1500 ∧
      (o.m_state_probe_rtt.m_probe_rtt_time < t.Now → o'.m_state = some .probe_bw) ∧
      (t.Now ≤ o.m_state_probe_rtt.m_probe_rtt_time → o'.m_state = o.m_state) := by
  refine ⟨rfl, rfl, rfl, ?_⟩
  by_cases hlt : o.m_state_probe_rtt.m_probe_rtt_time < t.Now
  · obtain ⟨o', hc, hs, -, -, -, hw, -⟩ := changeState_probe_bw_some c t
      { o with trace := o.trace ++ [Event.execute .probe_rtt], m_cwnd := c.MIN_CWND * 1500 }
      (hr hlt)
    refine ⟨o', ?_, hw, fun _ => hs, fun h => absurd hlt (not_lt.mpr h)⟩
    simp only [BbrAdaptiveProbeRTTState.execute, gt_iff_lt, if_pos hlt]
    exact hc
  · exact ⟨{ o with trace := o.trace ++ [Event.execute .probe_rtt],
                    m_cwnd := c.MIN_CWND * 1500 },
      by simp only [BbrAdaptiveProbeRTTState.execute, gt_iff_lt, if_neg hlt],
      rfl, fun h => absurd h hlt, fun _ => rfl⟩

/-- Witness of C21: a window of 90000 bytes, `execute()` after the deadline. -/
theorem probe_rtt_gains_and_window_witness :
    ∃ o', BbrAdaptiveProbeRTTState.execute sampleConsts sampleTick
        { sampleFlow with m_state := some .probe_rtt, m_cwnd := 90000,
                          m_state_probe_rtt := { m_probe_rtt_time := 900000000 } } = some o' ∧
      o'.m_cwnd = 6000 ∧ o'.m_state = some .probe_bw := by
  obtain ⟨-, -, -, o', he, hw, hs, -⟩ := probe_rtt_gains_and_window sampleConsts sampleTick
    { sampleFlow with m_state := some .probe_rtt, m_cwnd := 90000,
                      m_state_probe_rtt := { m_probe_rtt_time := 900000000 } }
    (fun _ => ⟨4, by decide, by decide⟩)
  exact ⟨o', he, by rw [hw]; norm_num [sampleConsts], hs (by decide)⟩

/-- C22. Transition graph of one tick: for a machine with active state `p`,
`update()` returns and the kind `k'` it leaves active satisfies: with a forced
probe `k'` is `PROBE_RTT`, from any `p`; otherwise `STARTUP` leads to `STARTUP`
or `DRAIN`, `DRAIN` to `DRAIN` or `PROBE_BW`, `PROBE_BW` to `PROBE_BW`, and
`PROBE_RTT` to `PROBE_RTT` or `PROBE_BW`. Hence `STARTUP` is active after a tick
only if it was before, and `DRAIN` only if `STARTUP` or `DRAIN` was. The random
source is assumed to yield a phase other than 1, so that a change to `PROBE_BW`
returns. -/
theorem update_transition_graph (c : Consts) (t : Tick) (p : StatePtr) (o : TcpBbrAdaptive)
    (hact : o.m_state = some p) (hr : ∃ r ∈ t.rand, r % 8 ≠ 1) :
    ∃ o' k', update c t o = some o' ∧ getStateType o = some p.getType ∧
      getStateType o' = some k' ∧
      (t.checkProbeRTT = true → k' = .PROBE_RTT_STATE) ∧
      (t.checkProbeRTT = false →
        (p.getType = .STARTUP_STATE → k' = .STARTUP_STATE ∨ k' = .DRAIN_STATE) ∧
        (p.getType = .DRAIN_STATE → k' = .DRAIN_STATE ∨ k' = .PROBE_BW_STATE) ∧
        (p.getType = .PROBE_BW_STATE → k' = .PROBE_BW_STATE) ∧
        (p.getType = .PROBE_RTT_STATE → k' = .PROBE_RTT_STATE ∨ k' = .PROBE_BW_STATE)) ∧
      (k' = .STARTUP_STATE → p.getType = .STARTUP_STATE ∧ t.checkProbeRTT = false) ∧
      (k' = .DRAIN_STATE →
        (p.getType = .STARTUP_STATE ∨ p.getType = .DRAIN_STATE) ∧ t.checkProbeRTT = false) := by
  have hk : getStateType o = some p.getType := by simp [getStateType, hact]
  by_cases hf : t.checkProbeRTT = true
  · obtain ⟨o', hu, hs, -⟩ := update_forced c t p o hact hf
    refine ⟨o', .PROBE_RTT_STATE, hu, hk, by simp [getStateType, hs, StatePtr.getType],
      fun _ => rfl, fun h => ?_, (fun h => nomatch h), (fun h => nomatch h)⟩
    rw [hf] at h
    exact nomatch h
  · have hf' : t.checkProbeRTT = false := by simpa using hf
    obtain ⟨o', hu, h1, h2, h3, h4⟩ := update_unforced_cases c t p o hact hf' hr
    cases p with
    | startup =>
      rcases h1 rfl with ⟨hs, -⟩ | ⟨hs, -⟩
      · exact ⟨o', .STARTUP_STATE, hu, hk, by simp [getStateType, hs, StatePtr.getType],
          by simp [hf'], by simp [StatePtr.getType], by simp [StatePtr.getType, hf'],
          by simp⟩
      · exact ⟨o', .DRAIN_STATE, hu, hk, by simp [getStateType, hs, StatePtr.getType],
          by simp [hf'], by simp [StatePtr.getType], by simp,
          by simp [StatePtr.getType, hf']⟩
    | drain =>
      rcases h2 rfl with ⟨hs, -⟩ | ⟨hs, -⟩
      · exact ⟨o', .DRAIN_STATE, hu, hk, by simp [getStateType, hs, StatePtr.getType],
          by simp [hf'], by simp [StatePtr.getType], by simp,
          by simp [StatePtr.getType, hf']⟩
      · exact ⟨o', .PROBE_BW_STATE, hu, hk, by simp [getStateType, hs, StatePtr.getType],
          by simp [hf'], by simp [StatePtr.getType], by simp, by simp⟩
    | probe_bw =>
      obtain ⟨hs, -⟩ := h3 rfl
      exact ⟨o', .PROBE_BW_STATE, hu, hk, by simp [getStateType, hs, StatePtr.getType],
        by simp [hf'], by simp [StatePtr.getType], by simp, by simp⟩
    | probe_rtt =>
      rcases h4 rfl with ⟨hs, -⟩ | ⟨hs, -⟩
      · exact ⟨o', .PROBE_RTT_STATE, hu, hk, by simp [getStateType, hs, StatePtr.getType],
          by simp [hf'], by simp [StatePtr.getType], by simp, by simp⟩
      · exact ⟨o', .PROBE_BW_STATE, hu, hk, by simp [getStateType, hs, StatePtr.getType],
          by simp [hf'], by simp [StatePtr.getType], by simp, by simp⟩

/-- Witness of C22: a tick in `DRAIN` with 4000 bytes in flight and target 5000. -/
theorem update_transition_graph_witness :
    ∃ o' k', update sampleConsts sampleTick
        { sampleFlow with m_state := some .drain,
                          m_state_drain := { m_inflight_limit := 5000, m_round_count := 0 } }
        = some o' ∧
      getStateType o' = some k' ∧ (k' = .DRAIN_STATE ∨ k' = .PROBE_BW_STATE) := by
  obtain ⟨o', k', hu, -, hk, -, h, -⟩ := update_transition_graph sampleConsts sampleTick .drain
    { sampleFlow with m_state := some .drain,
                      m_state_drain := { m_inflight_limit := 5000, m_round_count := 0 } }
    rfl ⟨4, by decide, by decide⟩
  exact ⟨o', k', hu, hk, (h rfl).2.1 rfl⟩

/-- C23. Forced re-entry into `PROBE_RTT` resets the deadline: for a machine in
`PROBE_RTT` with any deadline, `update()` at time `now` with a forced probe runs
exit and enter of `PROBE_RTT` again, sets the deadline to
`now + max(rtt, 0.2 s)` and leaves the machine in `PROBE_RTT`, also when `now` is
past the old deadline; and after any sequence of ticks that all carry a forced
probe the machine is still in `PROBE_RTT`. -/
theorem forced_reentry_resets_deadline (c : Consts) (t : Tick) (o : TcpBbrAdaptive)
    (hact : o.m_state = some .probe_rtt) (hf : t.checkProbeRTT = true) :
    (∃ o', update c t o = some o' ∧ getStateType o' = some .PROBE_RTT_STATE ∧
      o'.m_state_probe_rtt.m_probe_rtt_time = t.Now + max t.getRTT 200000000 ∧
      o'.trace = o.trace ++
        [Event.exit .probe_rtt, Event.enter .probe_rtt, Event.execute .probe_rtt,
          Event.cullRTTwindow, Event.cullBWwindow] ++
        (if t.getRTT_culled ≤ 0 then [] else [Event.Schedule t.getRTT_culled])) ∧
    ∀ l : List Tick, (∀ x ∈ l, x.checkProbeRTT = true) →
      ∃ o', updates c l o = some o' ∧ getStateType o' = some .PROBE_RTT_STATE := by
  constructor
  · obtain ⟨o', hu, hs, -, -, -, hd, -, -, -, ht⟩ := update_forced c t .probe_rtt o hact hf
    exact ⟨o', hu, by simp [getStateType, hs, StatePtr.getType], hd, ht⟩
  · intro l hl
    obtain ⟨o', hu, hs⟩ := updates_all_forced c l o hact hl
    exact ⟨o', hu, by simp [getStateType, hs, StatePtr.getType]⟩

/-- Witness of C23: deadline 0.9 s and a forced probe at 1 s with an RTT of
50 ms; the new deadline is 1.2 s. -/
theorem forced_reentry_resets_deadline_witness :
    ∃ o', update sampleConsts forcedTick
        { sampleFlow with m_state := some .probe_rtt,
                          m_state_probe_rtt := { m_probe_rtt_time := 900000000 } } = some o' ∧
      getStateType o' = some .PROBE_RTT_STATE ∧
      o'.m_state_probe_rtt.m_probe_rtt_time = 1200000000 := by
  obtain ⟨⟨o', hu, hs, hd, -⟩, -⟩ := forced_reentry_resets_deadline sampleConsts forcedTick
    { sampleFlow with m_state := some .probe_rtt,
                      m_state_probe_rtt := { m_probe_rtt_time := 900000000 } } rfl rfl
  exact ⟨o', hu, hs, hd.trans (by decide)⟩

/-- C25. Startup re-entry keeps the stall count: for a `STARTUP` state left with
stall count 3 and best bandwidth `b`, `changeState` back to `STARTUP` returns
with the count still 3, and the first `execute()` with a non-negative estimate
not above `b * STARTUP_THRESHOLD` brings the count to 4 and changes the machine
to `DRAIN` at once. -/
theorem startup_reentry_keeps_stall_count (c : Consts) (t0 t : Tick) (o : TcpBbrAdaptive)
    (b : ℚ) (hb : o.m_state_startup.m_full_bw = b)
    (hcnt : o.m_state_startup.m_full_bw_count = 3)
    (h : 0 ≤ t.getBW ∧ t.getBW ≤ b * c.STARTUP_THRESHOLD) :
    ∃ o1 o2, changeState c t0 .startup o = some o1 ∧
      getStateType o1 = some .STARTUP_STATE ∧ o1.m_state_startup.m_full_bw_count = 3 ∧
      BbrAdaptiveStartupState.execute c t o1 = some o2 ∧
      getStateType o2 = some .DRAIN_STATE ∧ o2.m_state_startup.m_full_bw_count = 4 := by
  obtain ⟨o1, hc, hs, hst, -⟩ := changeState_startup c t0 o
  obtain ⟨o2, he, hs2, -, hc2⟩ := startup_execute_drain c t o1 h.1
    (by rw [hst, hb]; exact h.2) (by rw [hst, hcnt]; decide)
  refine ⟨o1, o2, hc, by simp [getStateType, hs, StatePtr.getType], by rw [hst, hcnt], he,
    by simp [getStateType, hs2, StatePtr.getType], ?_⟩
  rw [hc2, hst, hcnt]; rfl

/-- Witness of C25: a machine in `PROBE_BW` whose `STARTUP` state was left with
best bandwidth 100 and stall count 3. -/
theorem startup_reentry_keeps_stall_count_witness :
    ∃ o1 o2, changeState sampleConsts sampleTick .startup
        { sampleFlow with m_state := some .probe_bw,
                          m_state_startup := { m_full_bw := 100, m_full_bw_count := 3 } }
        = some o1 ∧
      getStateType o1 = some .STARTUP_STATE ∧ o1.m_state_startup.m_full_bw_count = 3 ∧
      BbrAdaptiveStartupState.execute sampleConsts sampleTick o1 = some o2 ∧
      getStateType o2 = some .DRAIN_STATE ∧ o2.m_state_startup.m_full_bw_count = 4 :=
  startup_reentry_keeps_stall_count sampleConsts sampleTick sampleTick
    { sampleFlow with m_state := some .probe_bw,
                      m_state_startup := { m_full_bw := 100, m_full_bw_count := 3 } }
    100 rfl rfl (by norm_num [sampleTick, sampleConsts])

/-- C27. ProbeBw enter and first execute agree: after `enter()` has picked its
starting phase (never 1), the `execute()` that follows writes the same pacing
gain and the same congestion-window gain as `enter()` did, with and without
pacing; the phase advances by one modulo 8 and no other field of the flow
changes. The random source is assumed to yield a phase other than 1, so that
`enter()` returns. -/
theorem probe_bw_enter_execute_agree (c : Consts) (t : Tick) (o : TcpBbrAdaptive)
    (hr : ∃ r ∈ t.rand, r % 8 ≠ 1) :
    ∃ o1, BbrAdaptiveProbeBWState.enter c t o = some o1 ∧
      o1.m_state_probe_bw.m_gain_cycle ≠ 1 ∧
      (BbrAdaptiveProbeBWState.execute c o1).m_pacing_gain = o1.m_pacing_gain ∧
      (BbrAdaptiveProbeBWState.execute c o1).m_cwnd_gain = o1.m_cwnd_gain ∧
      (BbrAdaptiveProbeBWState.execute c o1).m_state_probe_bw.m_gain_cycle
        = (o1.m_state_probe_bw.m_gain_cycle + 1) % 8 ∧
      BbrAdaptiveProbeBWState.execute c o1 = { o1 with
        m_state_probe_bw := { m_gain_cycle := (o1.m_state_probe_bw.m_gain_cycle + 1) % 8 }
        trace := o1.trace ++ [Event.execute .probe_bw] } := by
  obtain ⟨r, -, hp, hne⟩ := pickGainCycle_of_mem t.rand hr
  have hlt : r % 8 < 8 := Nat.mod_lt r (by decide)
  have hne' : ((r % 8 : Nat) : Int) ≠ 1 := by exact_mod_cast hne
  have hrange : 0 ≤ ((r % 8 : Nat) : Int) ∧ ((r % 8 : Nat) : Int) ≤ 7 := by omega
  have hcyc : (BbrAdaptiveProbeBWState.execute c
      { o with
        m_state_probe_bw := { m_gain_cycle := ((r % 8 : Nat) : Int) }
        m_pacing_gain :=
          if ((r % 8 : Nat) : Int) = 0 then c.STEADY_FACTOR + c.PROBE_FACTOR
          else c.STEADY_FACTOR
        m_cwnd_gain :=
          if c.NO_PACING then
            (if ((r % 8 : Nat) : Int) = 0 then c.STEADY_FACTOR + c.PROBE_FACTOR
              else c.STEADY_FACTOR)
          else c.STEADY_FACTOR * 2
        trace := o.trace ++ [Event.enter .probe_bw] }).m_state_probe_bw.m_gain_cycle
      = (((r % 8 : Nat) : Int) + 1) % 8 :=
    probe_bw_execute_gain_cycle c _ hrange
  refine ⟨_, by simp only [BbrAdaptiveProbeBWState.enter, hp], hne', ?_, ?_, hcyc, ?_⟩
  · simp only [BbrAdaptiveProbeBWState.execute, if_neg hne']
  · simp only [BbrAdaptiveProbeBWState.execute, if_neg hne']
    cases c.NO_PACING <;> simp [mul_comm]
  · have hp' : (BbrAdaptiveProbeBWState.execute c _).m_state_probe_bw
        = { m_gain_cycle := (((r % 8 : Nat) : Int) + 1) % 8 } :=
      congrArg BbrAdaptiveProbeBWState.mk hcyc
    simp only [BbrAdaptiveProbeBWState.execute, if_neg hne'] at hp' ⊢
    rw [hp']
    cases c.NO_PACING <;> simp [mul_comm]

/-- Witness of C27: the results 9, 17, 4, 1 of `rand()` give phase 4, then 5. -/
theorem probe_bw_enter_execute_agree_witness :
    ∃ o1, BbrAdaptiveProbeBWState.enter sampleConsts sampleTick sampleFlow = some o1 ∧
      (BbrAdaptiveProbeBWState.execute sampleConsts o1).m_pacing_gain = o1.m_pacing_gain ∧
      (BbrAdaptiveProbeBWState.execute sampleConsts o1).m_cwnd_gain = o1.m_cwnd_gain := by
  obtain ⟨o1, he, -, hp, hc, -⟩ := probe_bw_enter_execute_agree sampleConsts sampleTick
    sampleFlow ⟨4, by decide, by decide⟩
  exact ⟨o1, he, hp, hc⟩

/-- C24 as stated fails: with the design threshold 1.25, the estimates 100 and
110 from a fresh `STARTUP` state leave the machine in `STARTUP` with best
bandwidth 100, while the largest estimate seen is 110. The products of the two
growth tests, `0 * 1.25 = 0` and `100 * 1.25 = 125`, are `double` values, so
that no rounding takes place. -/
theorem best_bandwidth_counterexample :
    ∃ o', startupExecutes sampleConsts
        [{ sampleTick with getBW := 100 }, { sampleTick with getBW := 110 }]
        { sampleFlow with m_state := some .startup } = some o' ∧
      o'.m_state = some .startup ∧
      o'.m_state_startup.m_full_bw = 100 ∧
      o'.m_state_startup.m_full_bw ≠ List.foldl max 0 [(100 : ℚ), 110] := by
  refine ⟨{ sampleFlow with
      m_state := some .startup
      m_state_startup := { m_full_bw := 100, m_full_bw_count := 1 }
      trace := [Event.execute .startup, Event.execute .startup] }, ?_, rfl, rfl, ?_⟩
  · norm_num [startupExecutes, BbrAdaptiveStartupState.execute, sampleFlow, sampleConsts,
      BbrAdaptiveStartupState.new]
  · norm_num [List.foldl]

/-- C24 (amended). The best bandwidth follows the running maximum up to the
growth threshold: with `STARTUP_THRESHOLD` at least 1, after any sequence of
`execute()` calls with non-negative estimates (`double` values) from a freshly
constructed `STARTUP` state, the best bandwidth is at most the largest estimate
seen, the largest estimate seen is at most the product of the best bandwidth
and `STARTUP_THRESHOLD` as the `double` multiplication of the growth test yields
it, and the two are equal when `STARTUP_THRESHOLD` is 1. -/
theorem best_bandwidth_within_threshold (c : Consts) (l : List Tick) (o : TcpBbrAdaptive)
    (hT : 1 ≤ c.STARTUP_THRESHOLD)
    (hfresh : o.m_state_startup = BbrAdaptiveStartupState.new)
    (hnn : ∀ t ∈ l, 0 ≤ t.getBW ∧ c.fl t.getBW = t.getBW) :
    ∃ o', startupExecutes c l o = some o' ∧
      o'.m_state_startup.m_full_bw ≤ (l.map Tick.getBW).foldl max 0 ∧
      (l.map Tick.getBW).foldl max 0
        ≤ c.fl (o'.m_state_startup.m_full_bw * c.STARTUP_THRESHOLD) ∧
      (c.STARTUP_THRESHOLD = 1 →
        o'.m_state_startup.m_full_bw = (l.map Tick.getBW).foldl max 0) := by
  have hb : o.m_state_startup.m_full_bw = 0 := by rw [hfresh]; rfl
  obtain ⟨o', he, hd, hle, hge⟩ := startupExecutes_full_bw c hT l o 0 (by rw [hb])
    (by rw [hb]; exact c.fl_zero) (by rw [hb])
    (by rw [hb, zero_mul, c.fl_zero]) hnn
  refine ⟨o', he, hle, hge, fun h1 => ?_⟩
  rw [h1, mul_one, hd] at hge
  exact le_antisymm hle hge

/-- Witness of C24 (amended): the estimates 100 and 110 with threshold 1.25. -/
theorem best_bandwidth_within_threshold_witness :
    ∃ o', startupExecutes sampleConsts
        [{ sampleTick with getBW := 100 }, { sampleTick with getBW := 110 }]
        { sampleFlow with m_state := some .startup } = some o' ∧
      o'.m_state_startup.m_full_bw
        ≤ ([{ sampleTick with getBW := 100 }, { sampleTick with getBW := 110 }].map
            Tick.getBW).foldl max 0 ∧
      ([{ sampleTick with getBW := 100 }, { sampleTick with getBW := 110 }].map
          Tick.getBW).foldl max 0
        ≤ sampleConsts.fl (o'.m_state_startup.m_full_bw * sampleConsts.STARTUP_THRESHOLD) := by
  obtain ⟨o', he, h1, h2, -⟩ := best_bandwidth_within_threshold sampleConsts
    [{ sampleTick with getBW := 100 }, { sampleTick with getBW := 110 }]
    { sampleFlow with m_state := some .startup } (by norm_num [sampleConsts]) rfl
    (by
      intro t ht
      simp only [List.mem_cons, List.mem_singleton, List.not_mem_nil, or_false] at ht
      rcases ht with h | h <;> rw [h] <;> exact ⟨by norm_num, rfl⟩)
  exact ⟨o', he, h1, h2⟩

/-- C26. Gains are owned by the active state: after `changeState(STARTUP)` and
any sequence of `update()` ticks, a machine in `STARTUP` has both gains equal to
`STARTUP_GAIN`, a machine in `DRAIN` has pacing gain `1 / STARTUP_GAIN`, a
machine in `PROBE_RTT` has both gains equal to `STEADY_FACTOR`, and a machine in
`PROBE_BW` has pacing gain `STEADY_FACTOR`, `STEADY_FACTOR + PROBE_FACTOR` or
the low value of phase 1. The random source is assumed to yield a phase other
than 1 on every tick, so that a change to `PROBE_BW` returns. -/
theorem gains_owned_by_active_state (c : Consts) (t0 : Tick) (l : List Tick)
    (o : TcpBbrAdaptive) (hr : ∀ t ∈ l, ∃ r ∈ t.rand, r % 8 ≠ 1) :
    ∃ o' q, (changeState c t0 .startup o).bind (updates c l) = some o' ∧
      o'.m_state = some q ∧
      (o'.m_state = some .startup →
        o'.m_pacing_gain = c.STARTUP_GAIN ∧ o'.m_cwnd_gain = c.STARTUP_GAIN) ∧
      (o'.m_state = some .drain → o'.m_pacing_gain = 1 / c.STARTUP_GAIN) ∧
      (o'.m_state = some .probe_rtt →
        o'.m_pacing_gain = c.STEADY_FACTOR ∧ o'.m_cwnd_gain = c.STEADY_FACTOR) ∧
      (o'.m_state = some .probe_bw →
        o'.m_pacing_gain = c.STEADY_FACTOR ∨
        o'.m_pacing_gain = c.STEADY_FACTOR + c.PROBE_FACTOR ∨
        o'.m_pacing_gain = (if c.NO_PACING then c.STEADY_FACTOR - c.DRAIN_FACTOR / 8
          else c.STEADY_FACTOR - c.DRAIN_FACTOR)) := by
  obtain ⟨o1, hc, hs, -, hpg, hcg⟩ := changeState_startup c t0 o
  obtain ⟨o', q, hu, hs', g1, g2, g3, g4⟩ := updates_keep_gains c l .startup o1 hs hr
    (fun _ => ⟨hpg, hcg⟩) (fun h => nomatch h) (fun h => nomatch h) (fun h => nomatch h)
  refine ⟨o', q, by rw [hc]; exact hu, hs', ?_, ?_, ?_, ?_⟩
  · intro h; exact g1 (Option.some.inj (hs'.symm.trans h))
  · intro h; exact g2 (Option.some.inj (hs'.symm.trans h))
  · intro h; exact g3 (Option.some.inj (hs'.symm.trans h))
  · intro h; exact g4 (Option.some.inj (hs'.symm.trans h))

/-- Witness of C26: a fresh machine, `changeState(STARTUP)` and three ticks. -/
theorem gains_owned_by_active_state_witness :
    ∃ o' q, (changeState sampleConsts sampleTick .startup sampleFlow).bind
        (updates sampleConsts [sampleTick, forcedTick, busyTick]) = some o' ∧
      o'.m_state = some q ∧
      (o'.m_state = some .probe_rtt →
        o'.m_pacing_gain = sampleConsts.STEADY_FACTOR ∧
        o'.m_cwnd_gain = sampleConsts.STEADY_FACTOR) := by
  obtain ⟨o', q, hu, hs, -, -, h3, -⟩ := gains_owned_by_active_state sampleConsts sampleTick
    [sampleTick, forcedTick, busyTick] sampleFlow
    (by
      intro t ht
      simp only [List.mem_cons, List.mem_singleton, List.not_mem_nil, or_false] at ht
      rcases ht with h | h | h <;> rw [h] <;> exact ⟨4, by decide, by decide⟩)
  exact ⟨o', q, hu, hs, h3⟩

/-- C28. Drain round counter stays below the cap: after any sequence of
`changeState` and `update()` calls on a machine constructed without active
state, if `DRAIN` is active then its round count is at most 4; so the count
incremented by the next `execute()` equals 5 exactly when it is at least 5; and
from such a state with round count `n` the machine has left `DRAIN` after
`5 - n` further ticks, whatever the bytes in flight. In particular, from any
entry into `DRAIN` the machine has left `DRAIN` after 5 ticks. The random source
is assumed to yield a phase other than 1 on every call, so that a change to
`PROBE_BW` returns. -/
theorem drain_round_counter_below_cap (c : Consts) (l : List Call) (o0 : TcpBbrAdaptive)
    (h0 : o0.m_state = none) (hr : ∀ x ∈ l, ∃ r ∈ x.tick.rand, r % 8 ≠ 1) :
    (∃ o', runCalls c l o0 = some o' ∧
      (o'.m_state = some .drain →
        o'.m_state_drain.m_round_count ≤ 4 ∧
        ((o'.m_state_drain.m_round_count + 1) % 2 ^ 32 = 5 ↔
          5 ≤ (o'.m_state_drain.m_round_count + 1) % 2 ^ 32) ∧
        ∀ ticks : List Tick, 5 ≤ o'.m_state_drain.m_round_count + ticks.length →
          (∀ t ∈ ticks, ∃ r ∈ t.rand, r % 8 ≠ 1) →
          ∃ o'', updates c ticks o' = some o'' ∧ o''.m_state ≠ some .drain)) ∧
    (∀ (o1 : TcpBbrAdaptive) (t1 : Tick) (ticks : List Tick), 5 ≤ ticks.length →
      (∀ t ∈ ticks, ∃ r ∈ t.rand, r % 8 ≠ 1) →
      ∃ o2 o'', changeState c t1 .drain o1 = some o2 ∧ o2.m_state = some .drain ∧
        updates c ticks o2 = some o'' ∧ o''.m_state ≠ some .drain) := by
  constructor
  · obtain ⟨o', hrun, hinv⟩ := runCalls_drain_count c l o0
      (fun h => by rw [h0] at h; exact nomatch h) hr
    refine ⟨o', hrun, fun hact => ?_⟩
    have h4 := hinv hact
    refine ⟨h4, by omega, fun ticks hlen hrt => ?_⟩
    obtain ⟨o'', hus, hs⟩ := updates_leave_drain c ticks o' hact h4 hlen hrt
    refine ⟨o'', hus, fun hd => ?_⟩
    rcases hs with hs | hs <;> (rw [hs] at hd; exact nomatch hd)
  · intro o1 t1 ticks hlen hrt
    obtain ⟨o2, hc, hs, -, hcnt, -⟩ := changeState_drain c t1 o1
    obtain ⟨o'', hus, hs'⟩ := updates_leave_drain c ticks o2 hs (by rw [hcnt]; decide)
      (by rw [hcnt]; omega) hrt
    refine ⟨o2, o'', hc, hs, hus, fun hd => ?_⟩
    rcases hs' with hs' | hs' <;> (rw [hs'] at hd; exact nomatch hd)

/-- Witness of C28: `changeState(DRAIN)` with inflight target 0 and two ticks
with 9000 bytes in flight on a fresh machine: `DRAIN` is active with round
count 2, and three further ticks leave `DRAIN`. -/
theorem drain_round_counter_below_cap_witness :
    ∃ o', runCalls sampleConsts
        [Call.changeState drainTick .drain, Call.update drainTick, Call.update drainTick]
        sampleFlow = some o' ∧
      o'.m_state = some .drain ∧ o'.m_state_drain.m_round_count = 2 ∧
      o'.m_state_drain.m_round_count ≤ 4 ∧
      ∃ o'', updates sampleConsts [drainTick, drainTick, drainTick] o' = some o'' ∧
        o''.m_state ≠ some .drain := by
  obtain ⟨⟨o', hrun, h⟩, -⟩ := drain_round_counter_below_cap sampleConsts
    [Call.changeState drainTick .drain, Call.update drainTick, Call.update drainTick]
    sampleFlow rfl
    (by
      intro x hx
      simp only [List.mem_cons, List.mem_singleton, List.not_mem_nil, or_false] at hx
      rcases hx with h | h | h <;> rw [h] <;> exact ⟨4, by decide, by decide⟩)
  have hfl : Rat.floor 0 = 0 := rfl
  have hev : ∃ X, runCalls sampleConsts
      [Call.changeState drainTick .drain, Call.update drainTick, Call.update drainTick]
      sampleFlow = some X ∧ X.m_state = some .drain ∧ X.m_state_drain.m_round_count = 2 := by
    norm_num [hfl, runCalls, changeState, BbrAdaptiveStateMachine.enter,
      BbrAdaptiveDrainState.enter, update, execute, BbrAdaptiveDrainState.execute, drainTick,
      sampleTick, sampleFlow, sampleConsts, toUint32, cullRTTwindow, cullBWwindow, Schedule,
      IsNegative, BbrAdaptiveDrainState.new]
  obtain ⟨X, hX, hs, hc⟩ := hev
  have ho : o' = X := Option.some.inj (hrun.symm.trans hX)
  subst ho
  obtain ⟨h4, -, hleave⟩ := h hs
  obtain ⟨o'', hu, hne⟩ := hleave [drainTick, drainTick, drainTick] (by rw [hc]; decide)
    (by
      intro t ht
      simp only [List.mem_cons, List.mem_singleton, List.not_mem_nil, or_false] at ht
      rcases ht with h | h | h <;> rw [h] <;> exact ⟨4, by decide, by decide⟩)
  exact ⟨o', hrun, hs, hc, h4, o'', hu, hne⟩
